import Mathlib

/-!
Verification development for the Gesture-Rider driving game (src/game.js).

The simulation core of `src/game.js` is shallowly embedded below.  JS numbers
are modelled by `ℚ`; the places where the source can only produce values in
the modelled range are recorded as hypotheses of the theorems.  Car objects
carry an `id : ℕ` modelling JS object identity (`Array.prototype.indexOf`
compares object references; every car built by the game is a distinct object).
Purely cosmetic fields that never influence the simulation (`car.type`,
`car.percent`, sprite `type`, segment `color`) are omitted.
-/

namespace GestureRider

/-! ### Configuration constants (src/game.js lines 6-35) -/

def SEGMENT_LENGTH : ℚ := 200
def MAX_SPEED : ℚ := 12000
def ACCEL : ℚ := 100
def BRAKING : ℚ := -300
def DECEL : ℚ := -50
def OFF_ROAD_DECEL : ℚ := -200
def CAMERA_HEIGHT : ℚ := 1000
def CAMERA_DEPTH : ℚ := 84/100
def ROAD_WIDTH : ℚ := 2000
def TOTAL_SEGMENTS : ℕ := 2000

/-! ### Data model -/

/-- The polled input command (src/game.js `InputSystem.getCommand`, line 342). -/
structure Cmd where
  steer : ℚ
  accel : ℚ
  brake : ℚ
deriving DecidableEq, Repr

/-- A traffic car (src/game.js `Game.addCar`, lines 556-565).  `id` models JS
object identity; `percent` and `type` are cosmetic and omitted. -/
structure Car where
  id : ℕ
  offset : ℚ
  z : ℚ
  speed : ℚ
  justPassed : Bool
deriving DecidableEq, Repr

/-- A road segment (src/game.js `Game.resetRoad`, lines 528-554).  The world
depth of its near edge is `index * SEGMENT_LENGTH` (fixed at construction);
`color` and the per-frame camera/screen scratch fields are omitted, sprites
are represented by their lateral offset (their `type` is always `tree`). -/
structure Segment where
  index : ℕ
  curve : ℚ
  cars : List Car
  sprites : List ℚ
deriving DecidableEq, Repr

/-- The mutable game state owned by `Game` (src/game.js lines 492-502). -/
structure GameState where
  position : ℚ
  playerX : ℚ
  speed : ℚ
  score : ℚ
  highScore : ℚ
  distanceRun : ℚ
  isGameOver : Bool
  segments : List Segment
deriving DecidableEq, Repr

/-! ### Helpers -/

/-- Total track length `segments.length * SEGMENT_LENGTH` (src/game.js line 603). -/
def trackLength (segs : List Segment) : ℚ := (segs.length : ℚ) * SEGMENT_LENGTH

/-- `Math.floor(z / CONFIG.SEGMENT_LENGTH) % n` (src/game.js lines 664, 752-754).
All call sites have `z ≥ 0`, where JS `%` agrees with `Int.emod`. -/
def segIdx (n : ℕ) (z : ℚ) : ℤ := ⌊z / SEGMENT_LENGTH⌋ % (n : ℤ)

/-- The cars of segment `i` (empty when out of range; the states we consider
keep every index produced by the game in range). -/
def carsAt (segs : List Segment) (i : ℕ) : List Car :=
  ((segs.get? i).map Segment.cars).getD []

/-- `findSegment(z).curve` (src/game.js lines 594, 752-754); out-of-range
lookup cannot occur for the nonempty tracks the game builds. -/
def curveAt (segs : List Segment) (z : ℚ) : ℚ :=
  (((segs.get? (segIdx segs.length z).toNat).map Segment.curve).getD 0)

/-- Car depth wrap (src/game.js lines 660-661): note the strict `>` in the
first comparison. -/
def wrapZ (len z : ℚ) : ℚ :=
  let z1 := if z > len then z - len else z
  if z1 < 0 then z1 + len else z1

/-- Player position wrap (src/game.js lines 604-605): note the non-strict `>=`. -/
def wrapPos (len p : ℚ) : ℚ :=
  let p1 := if p ≥ len then p - len else p
  if p1 < 0 then p1 + len else p1

/-- Shortest-path signed depth difference on the circular track
(src/game.js lines 671-673 and 631-633). -/
def wrapDist (len d : ℚ) : ℚ :=
  let d1 := if d < -(len/2) then d + len else d
  if d1 > len/2 then d1 - len else d1

/-- Lateral interval overlap test (src/game.js `Game.overlap`, lines 729-734). -/
def overlap (x1 w1 x2 w2 : ℚ) : Bool :=
  let half1 := w1/2
  let half2 := w2/2
  let min1 := x1 - half1
  let max1 := x1 + half1
  let min2 := x2 - half2
  let max2 := x2 + half2
  !(decide (max1 < min2) || decide (min1 > max2))

/-! ### Player physics (src/game.js `Game.update`, lines 578-605) -/

/-- The speed input rule (lines 585-587): acceleration wins over braking. -/
def speedInput (dt : ℚ) (cmd : Cmd) (v : ℚ) : ℚ :=
  if cmd.accel > 0 then v + ACCEL * cmd.accel * dt * 60
  else if cmd.brake > 0 then v + BRAKING * dt * 60
  else v + DECEL * dt * 60

/-- `Math.max(0, Math.min(speed, MAX_SPEED))` (line 589). -/
def clampSpeed (v : ℚ) : ℚ := max 0 (min v MAX_SPEED)

/-- Steering displacement `dt * 2 * steer * (speed / MAX_SPEED)` (line 591). -/
def steerDx (dt steer v : ℚ) : ℚ := dt * 2 * steer * (v / MAX_SPEED)

/-- `Math.max(-2, Math.min(2, playerX))` (line 599). -/
def clampX (x : ℚ) : ℚ := max (-2) (min 2 x)

/-- The player-physics part of `Game.update` (lines 582-605), up to but not
including `updateTraffic` / `checkSpriteCollisions`. -/
def physStep (dt : ℚ) (cmd : Cmd) (st : GameState) : GameState :=
  let speedFrac := st.speed / MAX_SPEED
  let speed2 := clampSpeed (speedInput dt cmd st.speed)
  let dx := steerDx dt cmd.steer speed2
  let px1 := st.playerX - dx
  let curve := curveAt st.segments (st.position + CAMERA_DEPTH * SEGMENT_LENGTH)
  let px2 := px1 - dx * curve * speedFrac * (1/10)
  let speed3 := if (px2 < -1 ∨ px2 > 1) ∧ speed2 > 2000
                then speed2 + OFF_ROAD_DECEL * dt * 60 else speed2
  { st with
    speed := speed3
    playerX := clampX px2
    position := wrapPos (trackLength st.segments) (st.position + speed3 * dt)
    distanceRun := st.distanceRun + speed3 * dt }

/-! ### Traffic (src/game.js `Game.updateTraffic`, lines 648-717)

The source updates each car's depth and flags, accumulates score/crash
effects and records pending segment migrations in one pass over all
segments, then applies the migrations.  The per-car field updates do not
depend on the score/speed accumulator, so the pass is split below into a
pure per-car map (`advCar`), a fold for the scalar effects (`trafficPhys`)
and the recorded migrations (`collectMoves`); the iteration order is the
source's (segments in index order, cars in list order). -/

/-- The per-tick context of the traffic pass: elapsed time, track length,
`playerZ = position + CAMERA_HEIGHT` (line 650) and the player's lateral
offset. -/
structure CarCtx where
  dt : ℚ
  len : ℚ
  playerZ : ℚ
  playerX : ℚ
deriving DecidableEq, Repr

/-- Updated car depth: `car.z += car.speed * dt` then wrap (lines 658-661). -/
def advCarZ (ctx : CarCtx) (c : Car) : ℚ := wrapZ ctx.len (c.z + c.speed * ctx.dt)

/-- Shortest-path depth of a car relative to the player (lines 671-673). -/
def carDist (ctx : CarCtx) (z : ℚ) : ℚ := wrapDist ctx.len (z - ctx.playerZ)

/-- The close-call / overtake trigger condition (lines 676-686): the car sits
strictly inside the just-behind window, its `justPassed` flag is clear, and
the lateral separation is strictly inside the close-call band. -/
def closeCallCond (ctx : CarCtx) (c : Car) : Prop :=
  carDist ctx (advCarZ ctx c) < -100 ∧ -300 < carDist ctx (advCarZ ctx c) ∧
  c.justPassed = false ∧
  |ctx.playerX - c.offset| < 8/10 ∧ 35/100 < |ctx.playerX - c.offset|

instance (ctx : CarCtx) (c : Car) : Decidable (closeCallCond ctx c) := by
  unfold closeCallCond; infer_instance

/-- The collision condition against a car (lines 692-701): within 200 units
of wrapped depth and the 0.15-wide player box overlaps the 0.45-wide car box. -/
def hitCond (ctx : CarCtx) (c : Car) : Prop :=
  |carDist ctx (advCarZ ctx c)| < 200 ∧
  overlap ctx.playerX (15/100) c.offset (45/100) = true

instance (ctx : CarCtx) (c : Car) : Decidable (hitCond ctx c) := by
  unfold hitCond; infer_instance

/-- Per-car field update of the traffic pass (lines 658-689): advance and
wrap `z`, set `justPassed` on a close call, clear it when the car is more
than 1000 units away. -/
def advCar (ctx : CarCtx) (c : Car) : Car :=
  let z' := advCarZ ctx c
  let jp1 := if closeCallCond ctx c then true else c.justPassed
  let jp2 := if |carDist ctx z'| > 1000 then false else jp1
  { c with z := z', justPassed := jp2 }

/-- The scalar accumulator of the traffic pass. -/
structure Phys where
  speed : ℚ
  score : ℚ
  highScore : ℚ
  isGameOver : Bool
deriving DecidableEq, Repr

/-- `Game.crash` (lines 736-750), restricted to the simulation state it
mutates: zero the speed, latch game over, raise the persisted best score to
`Math.floor(score)` when exceeded. -/
def crashPhys (ph : Phys) : Phys :=
  { ph with
    speed := 0
    isGameOver := true
    highScore := if ph.score > ph.highScore then ((⌊ph.score⌋ : ℤ) : ℚ) else ph.highScore }

/-- Scalar effect of one car of the traffic pass: `triggerCloseCall`
adds the fixed 500 bonus (lines 682-685, 719-727), a collision calls
`crash` (lines 699-701). -/
def procCarPhys (ctx : CarCtx) (ph : Phys) (c : Car) : Phys :=
  let ph1 := if closeCallCond ctx c then { ph with score := ph.score + 500 } else ph
  if hitCond ctx c then crashPhys ph1 else ph1

/-- Fold of the scalar effects over all segments in order (lines 653-704). -/
def trafficPhys (ctx : CarCtx) (ph : Phys) (segs : List Segment) : Phys :=
  segs.foldl (fun a seg => seg.cars.foldl (procCarPhys ctx) a) ph

/-- A recorded pending migration (lines 666-668): the car's id, the segment
it currently occupies and the segment owning its new depth. -/
structure Move where
  carId : ℕ
  src : ℤ
  dst : ℤ
deriving DecidableEq, Repr

/-- The migrations recorded by the pass, in iteration order, computed from
the already-updated depths (lines 663-668). -/
def collectMovesAux (n : ℕ) : ℕ → List Segment → List Move
  | _, [] => []
  | i, seg :: rest =>
      (seg.cars.filterMap (fun c =>
        let a := segIdx n c.z
        if a = (i : ℤ) then none else some ⟨c.id, (i : ℤ), a⟩))
      ++ collectMovesAux n (i+1) rest

def collectMoves (n : ℕ) (segs : List Segment) : List Move :=
  collectMovesAux n 0 segs

/-- `fromSeg.cars.indexOf(move.car)` then remove: extract the first car with
the given id, returning it and the remaining list. -/
def extractFirstId (idv : ℕ) : List Car → Option (Car × List Car)
  | [] => none
  | c :: cs =>
      if c.id = idv then some (c, cs)
      else match extractFirstId idv cs with
           | none => none
           | some (x, rest) => some (x, c :: rest)

/-- Apply one recorded migration (lines 706-714): splice the car out of the
source segment's list and push it onto the destination segment's list.  The
source never records a migration with `src = dst` or an out-of-range index;
when the car is not found (`indexOf` returns -1) the move is skipped. -/
def applyMove (segs : List Segment) (m : Move) : List Segment :=
  match segs.get? m.src.toNat with
  | none => segs
  | some srcSeg =>
      match extractFirstId m.carId srcSeg.cars with
      | none => segs
      | some (c, rest) =>
          let segs1 := segs.set m.src.toNat { srcSeg with cars := rest }
          match segs1.get? m.dst.toNat with
          | none => segs1
          | some dstSeg =>
              segs1.set m.dst.toNat { dstSeg with cars := dstSeg.cars ++ [c] }

def applyMoves (segs : List Segment) (moves : List Move) : List Segment :=
  moves.foldl applyMove segs

/-- The traffic-pass context of a state: the tick length, total track
length, `playerZ = position + CAMERA_HEIGHT` (line 650) and the player's
lateral offset. -/
def trafficCtx (dt : ℚ) (st : GameState) : CarCtx :=
  ⟨dt, trackLength st.segments, st.position + CAMERA_HEIGHT, st.playerX⟩

/-- `Game.updateTraffic` (lines 648-717). -/
def updateTraffic (dt : ℚ) (st : GameState) : GameState :=
  let n := st.segments.length
  let ctx : CarCtx := trafficCtx dt st
  let ph1 := trafficPhys ctx ⟨st.speed, st.score, st.highScore, st.isGameOver⟩ st.segments
  let segs1 := st.segments.map (fun seg => { seg with cars := seg.cars.map (advCar ctx) })
  let segs2 := applyMoves segs1 (collectMoves n segs1)
  let score2 := if ph1.speed > 0 then ph1.score + (ph1.speed / 1000) * dt * 10 else ph1.score
  { st with
    speed := ph1.speed
    score := score2
    highScore := ph1.highScore
    isGameOver := ph1.isGameOver
    segments := segs2 }

/-! ### Sprite collisions (src/game.js `Game.checkSpriteCollisions`, lines 616-646) -/

/-- Whether any sprite of segment `idx` is within 100 wrapped units of the
player and laterally overlaps the 0.15-wide player box against the 0.3-wide
trunk box. -/
def spriteHitAt (segs : List Segment) (playerX playerZ len : ℚ) (idx : ℕ) : Bool :=
  (((segs.get? idx).map (fun seg =>
      seg.sprites.any (fun off =>
        decide (|wrapDist len ((seg.index : ℚ) * SEGMENT_LENGTH - playerZ)| < 100) &&
        overlap playerX (15/100) off (3/10)))).getD false)

/-- `Game.checkSpriteCollisions`: scan the player's segment and its
neighbours (offsets -1..2) and crash on the first overlap. -/
def checkSpriteCollisions (st : GameState) : GameState :=
  let playerZ := st.position + CAMERA_HEIGHT
  let n := st.segments.length
  let len := trackLength st.segments
  let start := segIdx n playerZ
  let hit := ([-1, 0, 1, 2] : List ℤ).any (fun i =>
      spriteHitAt st.segments st.playerX playerZ len (((start + i + n) % n).toNat))
  if hit then
    { st with
      speed := 0
      isGameOver := true
      highScore := if st.score > st.highScore then ((⌊st.score⌋ : ℤ) : ℚ) else st.highScore }
  else st

/-- `Game.update` (lines 578-614): a no-op when the game is over, otherwise
player physics, traffic, then sprite collisions.  HUD/audio writes are
presentation-only and omitted. -/
def update (dt : ℚ) (cmd : Cmd) (st : GameState) : GameState :=
  if st.isGameOver then st
  else checkSpriteCollisions (updateTraffic dt (physStep dt cmd st))

/-- Fold a list of `(dt, command)` ticks through `update`. -/
def runSteps (steps : List (ℚ × Cmd)) (st : GameState) : GameState :=
  steps.foldl (fun s p => update p.1 p.2 s) st

/-! ### Track construction (src/game.js `Game.resetRoad`, lines 528-554)

Track generation consumes `Math.random()`; the random choices are abstracted
into a `BuildPlan`.  `car i = some (off, sp)` means the spawn roll at segment
`i` succeeded with lane offset `off` and speed `sp`; the source only spawns
cars at `i > 20 ∧ i % 40 = 0` with `off ∈ {-0.65, 0, 0.65}` and
`sp ∈ [3000, 8000]`, and sprites at `i % 20 = 0`. -/

structure BuildPlan where
  car : ℕ → Option (ℚ × ℚ)
  sprite : ℕ → Option ℚ

/-- The spawn values `resetRoad` can actually produce for cars. -/
def PlanCars (p : BuildPlan) : Prop :=
  ∀ i pr, p.car i = some pr →
    (pr.1 = -65/100 ∨ pr.1 = 0 ∨ pr.1 = 65/100) ∧ 3000 ≤ pr.2 ∧ pr.2 ≤ 8000

/-- Curvature bands (line 532). -/
def segCurve (i : ℕ) : ℚ :=
  if 100 < i ∧ i < 300 then 2
  else if 500 < i ∧ i < 700 then -3
  else if 1000 < i ∧ i < 1200 then 4
  else if 1500 < i ∧ i < 1700 then -2
  else 0

/-- One segment as built by `resetRoad`; a spawned car has depth
`i * SEGMENT_LENGTH` and a clear `justPassed` flag (`Game.addCar`,
lines 556-565), and its `id` is the spawn segment index (at most one car
spawns per segment, so ids are distinct). -/
def buildSegment (p : BuildPlan) (i : ℕ) : Segment :=
  { index := i
    curve := segCurve i
    cars :=
      if 20 < i ∧ i % 40 = 0 then
        match p.car i with
        | some pr => [⟨i, pr.1, (i : ℚ) * SEGMENT_LENGTH, pr.2, false⟩]
        | none => []
      else []
    sprites := if i % 20 = 0 then (p.sprite i).toList else [] }

def resetRoad (p : BuildPlan) : List Segment :=
  (List.range TOTAL_SEGMENTS).map (buildSegment p)

/-- The state right after `Game`'s constructor / `restart` (lines 492-526),
with the persisted high score as a parameter. -/
def initState (p : BuildPlan) (hs : ℚ) : GameState :=
  { position := 0
    playerX := 0
    speed := 0
    score := 0
    highScore := hs
    distanceRun := 0
    isGameOver := false
    segments := resetRoad p }

/-- A build plan where every probabilistic spawn roll failed. -/
def plainPlan : BuildPlan := ⟨fun _ => none, fun _ => none⟩

/-- A build plan that spawns exactly one car, at segment 40 (the first
eligible spawn index), in the right lane at minimum speed. -/
def planOneCar : BuildPlan :=
  ⟨fun i => if i = 40 then some (65/100, 3000) else none, fun _ => none⟩

/-- A build plan that spawns exactly one car, at segment 1960, at the
maximum spawn speed 8000. -/
def planSeam : BuildPlan :=
  ⟨fun i => if i = 1960 then some (0, 8000) else none, fun _ => none⟩

/-! ### Ownership invariant vocabulary -/

/-- All cars on the track, in segment order (the traffic pass iteration
order). -/
def allCars : List Segment → List Car
  | [] => []
  | s :: r => s.cars ++ allCars r

/-- The ids of all cars on the track, in iteration order. -/
def carIds (segs : List Segment) : List ℕ := (allCars segs).map Car.id

/-- Every car sits in the segment owning its depth:
`floor(z / SEGMENT_LENGTH) mod segmentCount`. -/
def Owned (n : ℕ) (segs : List Segment) : Prop :=
  ∀ i : ℕ, ∀ c ∈ carsAt segs i, segIdx n c.z = (i : ℤ)

/-- Bounds the game maintains for every car: depth normalized into the track
(the seam point `trackLength` included, see the strict `>` in `wrapZ`) and a
spawn speed in `[0, 8000]`. -/
def CarsWF (segs : List Segment) : Prop :=
  ∀ c ∈ allCars segs, 0 ≤ c.z ∧ c.z ≤ trackLength segs ∧ 0 ≤ c.speed ∧ c.speed ≤ 8000

/-- The state invariant threaded through `update` for the traffic claims. -/
def TrackInv (st : GameState) : Prop :=
  61 ≤ st.segments.length ∧
  0 ≤ st.position ∧ st.position < trackLength st.segments ∧
  (carIds st.segments).Nodup ∧
  Owned st.segments.length st.segments ∧
  CarsWF st.segments

/-- Invariant carried through the pending-migration list while `applyMoves`
consumes it: the pending moves name pairwise distinct cars; each pending move's
car is still sitting in its recorded source segment, the recorded destination
is the owner of the car's (already updated) depth and both indices are in
range with `src ≠ dst`; and every car not named by a pending move already sits
in the segment owning its depth. -/
def MovesSpec (n : ℕ) (segs : List Segment) (moves : List Move) : Prop :=
  (moves.map Move.carId).Nodup ∧
  (∀ m ∈ moves, 0 ≤ m.src ∧ 0 ≤ m.dst ∧ m.src ≠ m.dst ∧
    m.src.toNat < segs.length ∧ m.dst.toNat < segs.length ∧
    ∃ c ∈ carsAt segs m.src.toNat, c.id = m.carId ∧ segIdx n c.z = m.dst) ∧
  (∀ i : ℕ, ∀ c ∈ carsAt segs i, c.id ∉ moves.map Move.carId → segIdx n c.z = (i : ℤ))

/-! ### Overtake bookkeeping over a run of ticks (for the `justPassed` claims) -/

/-- Number of times the close-call bonus fires for one car over a sequence of
tick contexts. -/
def bonusCount : Car → List CarCtx → ℕ
  | _, [] => 0
  | c, ctx :: rest => (if closeCallCond ctx c then 1 else 0) + bonusCount (advCar ctx c) rest

/-- The car's wrapped distance to the player never exceeds the reset
threshold 1000 anywhere along the run (a single "approach"). -/
def NoReset : Car → List CarCtx → Prop
  | _, [] => True
  | c, ctx :: rest => |carDist ctx (advCarZ ctx c)| ≤ 1000 ∧ NoReset (advCar ctx c) rest

instance NoReset.instDec : (c : Car) → (l : List CarCtx) → Decidable (NoReset c l)
  | _, [] => isTrue trivial
  | c, ctx :: rest =>
      have : Decidable (NoReset (advCar ctx c) rest) := NoReset.instDec (advCar ctx c) rest
      inferInstanceAs (Decidable (_ ∧ _))

/-! ### Projection engine (src/game.js `Utils.project`, lines 464-473) -/

/-- JS `Math.round`: round half toward positive infinity. -/
def jsRound (q : ℚ) : ℤ := ⌊q + 1/2⌋

structure Camera3 where
  x : ℚ
  y : ℚ
  z : ℚ
deriving DecidableEq, Repr

/-- The screen-space scratch record of a projected point.  `x`, `y`, `w` are
`Math.round`ed by the source, `scale` is not. -/
structure ScreenData where
  scale : ℚ
  x : ℤ
  y : ℤ
  w : ℤ
deriving DecidableEq, Repr

/-- A segment edge vertex record: fixed world coordinates plus the per-frame
camera/screen scratch fields that `project` overwrites.  The source never
assigns `world.x` (it reads `p.world.x || 0`), so `worldX` is the value that
read produces. -/
structure RPoint where
  worldX : ℚ
  worldY : ℚ
  worldZ : ℚ
  camera : Camera3
  screen : ScreenData
deriving DecidableEq, Repr

/-- `Utils.project` (lines 464-473).  When the camera-space depth is ≤ 0 the
function sets `screen.scale = 0` and returns without touching the other
screen fields (they keep their stale values). -/
def project (p : RPoint) (cameraX cameraY cameraZ cameraDepth width height roadWidth : ℚ) :
    RPoint :=
  let cx := p.worldX - cameraX
  let cy := p.worldY - cameraY
  let cz := p.worldZ - cameraZ
  if cz ≤ 0 then
    { p with camera := ⟨cx, cy, cz⟩, screen := { p.screen with scale := 0 } }
  else
    let scale := cameraDepth / cz
    { p with
      camera := ⟨cx, cy, cz⟩
      screen :=
        { scale := scale
          x := jsRound (width / 2 + scale * cx * width / 2)
          y := jsRound (height / 2 - scale * cy * height / 2)
          w := jsRound (scale * roadWidth * width / 2) } }

/-- The renderer's per-segment draw test (src/game.js line 780): a segment is
drawn only when none of the cull conditions holds (near edge at or behind the
depth-of-field plane, far edge below the running clip line, or far edge not
strictly above the near edge). -/
def segmentDrawCond (p1cz : ℚ) (p1sy p2sy maxY : ℤ) : Bool :=
  !(decide (p1cz ≤ CAMERA_DEPTH) || decide (p2sy ≥ maxY) || decide (p2sy ≥ p1sy))

/-! ### Spec-modelled input clamp (for the error-handling claim) -/

/-- Modelled from the spec, section 7: command values clamped "at every
boundary where external input enters the simulation" — `steer` to `[-1, 1]`,
`accel` and `brake` to `[0, 1]`.  Stated for comparison with `update`, which
applies no clamping to the incoming command. -/
def clampCmdSpec (c : Cmd) : Cmd :=
  ⟨max (-1) (min 1 c.steer), max 0 (min 1 c.accel), max 0 (min 1 c.brake)⟩

/-! ## Lemmas: segment access vocabulary -/

theorem carsAt_nil (i : ℕ) : carsAt [] i = [] := rfl

theorem carsAt_cons_zero (s : Segment) (r : List Segment) : carsAt (s :: r) 0 = s.cars := rfl

theorem carsAt_cons_succ (s : Segment) (r : List Segment) (i : ℕ) :
    carsAt (s :: r) (i + 1) = carsAt r i := rfl

theorem carsAt_of_ge {segs : List Segment} {i : ℕ} (h : segs.length ≤ i) : carsAt segs i = [] := by
  unfold carsAt
  rw [List.get?_eq_none.mpr h]
  rfl

theorem mem_carsAt_lt {segs : List Segment} {i : ℕ} {c : Car} (h : c ∈ carsAt segs i) :
    i < segs.length := by
  by_contra hlt
  push_neg at hlt
  rw [carsAt_of_ge hlt] at h
  exact absurd h (List.not_mem_nil c)

theorem allCars_append (A B : List Segment) : allCars (A ++ B) = allCars A ++ allCars B := by
  induction A with
  | nil => rfl
  | cons s r ih => simp [allCars, ih]

theorem mem_allCars_iff {segs : List Segment} {c : Car} :
    c ∈ allCars segs ↔ ∃ i, c ∈ carsAt segs i := by
  induction segs with
  | nil => simp [allCars, carsAt_nil]
  | cons s r ih =>
    simp only [allCars, List.mem_append, ih]
    constructor
    · rintro (h | ⟨i, h⟩)
      · exact ⟨0, h⟩
      · exact ⟨i + 1, h⟩
    · rintro ⟨i, h⟩
      cases i with
      | zero => exact Or.inl h
      | succ i => exact Or.inr ⟨i, h⟩

theorem carIds_cons (s : Segment) (r : List Segment) :
    carIds (s :: r) = s.cars.map Car.id ++ carIds r := by
  simp [carIds, allCars]

theorem id_mem_carIds {segs : List Segment} {i : ℕ} {c : Car} (h : c ∈ carsAt segs i) :
    c.id ∈ carIds segs := by
  exact List.mem_map_of_mem _ (mem_allCars_iff.mpr ⟨i, h⟩)

/-- Cars with equal ids on a track with globally distinct ids are the same
car in the same segment. -/
theorem carIds_nodup_unique {segs : List Segment} (h : (carIds segs).Nodup) :
    ∀ {i j : ℕ} {ci cj : Car}, ci ∈ carsAt segs i → cj ∈ carsAt segs j → ci.id = cj.id →
      i = j ∧ ci = cj := by
  induction segs with
  | nil => intro i j ci cj hi; rw [carsAt_nil] at hi; exact absurd hi (List.not_mem_nil ci)
  | cons s r ih =>
    rw [carIds_cons, List.nodup_append] at h
    obtain ⟨hs, hr, hdisj⟩ := h
    intro i j ci cj hi hj hid
    match i, j with
    | 0, 0 =>
      rw [carsAt_cons_zero] at hi hj
      exact ⟨rfl, List.inj_on_of_nodup_map hs hi hj hid⟩
    | 0, j + 1 =>
      rw [carsAt_cons_zero] at hi
      rw [carsAt_cons_succ] at hj
      exact absurd (hid ▸ id_mem_carIds hj) (hdisj (List.mem_map_of_mem Car.id hi))
    | i + 1, 0 =>
      rw [carsAt_cons_succ] at hi
      rw [carsAt_cons_zero] at hj
      exact absurd (hid ▸ id_mem_carIds hi) (hdisj (List.mem_map_of_mem Car.id hj))
    | i + 1, j + 1 =>
      rw [carsAt_cons_succ] at hi hj
      obtain ⟨hij, hc⟩ := ih hr hi hj hid
      exact ⟨by omega, hc⟩

/-- The ids within one segment of a track with globally distinct ids are
distinct. -/
theorem nodup_segment_ids {segs : List Segment} (h : (carIds segs).Nodup) {i : ℕ} :
    ((carsAt segs i).map Car.id).Nodup := by
  induction segs generalizing i with
  | nil => rw [carsAt_nil]; exact List.nodup_nil
  | cons s r ih =>
    rw [carIds_cons, List.nodup_append] at h
    match i with
    | 0 => exact h.1
    | i + 1 => exact ih h.2.1

/-! ## Lemmas: wrap arithmetic -/

theorem wrapPos_mem {len p : ℚ} (h1 : -len < p) (h2 : p < 2 * len) :
    0 ≤ wrapPos len p ∧ wrapPos len p < len := by
  simp only [wrapPos]
  split_ifs <;> constructor <;> linarith

theorem wrapZ_mem {len z : ℚ} (h0 : 0 ≤ z) (h2 : z ≤ 2 * len) :
    0 ≤ wrapZ len z ∧ wrapZ len z ≤ len := by
  simp only [wrapZ]
  split_ifs <;> constructor <;> linarith

theorem segIdx_mem {n : ℕ} (hn : 0 < n) (z : ℚ) :
    0 ≤ segIdx n z ∧ segIdx n z < (n : ℤ) := by
  unfold segIdx
  have hne : (n : ℤ) ≠ 0 := by exact_mod_cast hn.ne'
  exact ⟨Int.emod_nonneg _ hne, Int.emod_lt_of_pos _ (by exact_mod_cast hn)⟩

/-! ## Lemmas: the traffic and sprite passes on unoccupied tracks -/

theorem trafficPhys_no_cars (ctx : CarCtx) (ph : Phys) {segs : List Segment}
    (h : ∀ seg ∈ segs, seg.cars = []) : trafficPhys ctx ph segs = ph := by
  induction segs generalizing ph with
  | nil => rfl
  | cons s r ih =>
    have hs : s.cars = [] := h s (List.mem_cons_self s r)
    unfold trafficPhys
    rw [List.foldl_cons, hs]
    exact ih _ (fun seg hseg => h seg (List.mem_cons_of_mem s hseg))

theorem collectMovesAux_no_cars (n : ℕ) {segs : List Segment}
    (h : ∀ seg ∈ segs, seg.cars = []) : ∀ i, collectMovesAux n i segs = [] := by
  induction segs with
  | nil => intro i; rfl
  | cons s r ih =>
    intro i
    have hs : s.cars = [] := h s (List.mem_cons_self s r)
    rw [collectMovesAux, hs]
    simpa using ih (fun seg hseg => h seg (List.mem_cons_of_mem s hseg)) (i + 1)

theorem map_advCar_no_cars (ctx : CarCtx) {segs : List Segment}
    (h : ∀ seg ∈ segs, seg.cars = []) :
    segs.map (fun seg => { seg with cars := seg.cars.map (advCar ctx) }) = segs := by
  conv_rhs => rw [← List.map_id segs]
  refine List.map_congr_left ?_
  intro seg hseg
  have := h seg hseg
  cases seg
  simp_all

theorem spriteHitAt_no_sprites {segs : List Segment}
    (h : ∀ seg ∈ segs, seg.sprites = []) (px pz len : ℚ) (idx : ℕ) :
    spriteHitAt segs px pz len idx = false := by
  unfold spriteHitAt
  cases hg : segs.get? idx with
  | none => rfl
  | some seg =>
    have : seg.sprites = [] := h seg (List.get?_mem hg)
    simp [this]

theorem checkSpriteCollisions_no_sprites {st : GameState}
    (h : ∀ seg ∈ st.segments, seg.sprites = []) : checkSpriteCollisions st = st := by
  unfold checkSpriteCollisions
  simp [spriteHitAt_no_sprites h]

theorem updateTraffic_no_cars {st : GameState} (h : ∀ seg ∈ st.segments, seg.cars = []) (dt : ℚ) :
    updateTraffic dt st =
      { st with
        score := if st.speed > 0 then st.score + (st.speed / 1000) * dt * 10 else st.score } := by
  simp only [updateTraffic]
  rw [trafficPhys_no_cars _ _ h, map_advCar_no_cars _ h]
  simp only [collectMoves]
  rw [collectMovesAux_no_cars _ h 0]
  rfl

/-- On a track with no cars and no sprites, `update` is the player physics
step followed by the passive score accrual. -/
theorem update_no_occupants {st : GameState} (hgo : st.isGameOver = false)
    (hc : ∀ seg ∈ st.segments, seg.cars = []) (hs : ∀ seg ∈ st.segments, seg.sprites = [])
    (dt : ℚ) (cmd : Cmd) :
    update dt cmd st =
      { physStep dt cmd st with
        score := if (physStep dt cmd st).speed > 0 then
            (physStep dt cmd st).score + ((physStep dt cmd st).speed / 1000) * dt * 10
          else (physStep dt cmd st).score } := by
  have hsegs : (physStep dt cmd st).segments = st.segments := rfl
  unfold update
  rw [hgo]
  simp only [Bool.false_eq_true, if_false]
  rw [updateTraffic_no_cars (by rw [hsegs]; exact hc) dt]
  exact checkSpriteCollisions_no_sprites (by exact hs)

/-! ## Lemmas: track construction -/

theorem resetRoad_length (p : BuildPlan) : (resetRoad p).length = TOTAL_SEGMENTS := by
  simp [resetRoad]

theorem resetRoad_get?_lt (p : BuildPlan) {i : ℕ} (h : i < TOTAL_SEGMENTS) :
    (resetRoad p).get? i = some (buildSegment p i) := by
  unfold resetRoad
  rw [List.get?_map, List.get?_range h]
  rfl

theorem mem_resetRoad {p : BuildPlan} {seg : Segment} (h : seg ∈ resetRoad p) :
    ∃ i, i < TOTAL_SEGMENTS ∧ seg = buildSegment p i := by
  unfold resetRoad at h
  obtain ⟨i, hi, rfl⟩ := List.mem_map.mp h
  exact ⟨i, List.mem_range.mp hi, rfl⟩

theorem plainPlan_no_cars : ∀ seg ∈ resetRoad plainPlan, seg.cars = [] := by
  intro seg h
  obtain ⟨i, _, rfl⟩ := mem_resetRoad h
  simp [buildSegment, plainPlan]

theorem plainPlan_no_sprites : ∀ seg ∈ resetRoad plainPlan, seg.sprites = [] := by
  intro seg h
  obtain ⟨i, _, rfl⟩ := mem_resetRoad h
  simp [buildSegment, plainPlan]

theorem curveAt_resetRoad (p : BuildPlan) (z : ℚ) {k : ℕ} (hk : k < TOTAL_SEGMENTS)
    (hz : (segIdx TOTAL_SEGMENTS z).toNat = k) :
    curveAt (resetRoad p) z = segCurve k := by
  unfold curveAt
  rw [resetRoad_length, hz, resetRoad_get?_lt p hk]
  rfl

/-! ## Lemmas: player physics bounds -/

theorem clampSpeed_mem (v : ℚ) : 0 ≤ clampSpeed v ∧ clampSpeed v ≤ MAX_SPEED :=
  ⟨le_max_left 0 _,
   max_le (by unfold MAX_SPEED; norm_num) (min_le_right v MAX_SPEED)⟩

theorem clampX_mem (x : ℚ) : -2 ≤ clampX x ∧ clampX x ≤ 2 :=
  ⟨le_max_left (-2) _, max_le (by norm_num) (min_le_left 2 x)⟩

theorem mul_dt_bounds {v dt : ℚ} (hdt : 0 < dt) (hdt1 : dt ≤ 1)
    (hv0 : -10000 < v) (hv1 : v ≤ 12000) : -10000 < v * dt ∧ v * dt ≤ 12000 := by
  rcases le_or_lt 0 v with hv | hv
  · exact ⟨by nlinarith, by nlinarith⟩
  · exact ⟨by nlinarith, by nlinarith⟩

/-- The speed after the physics part of a step: at most `MAX_SPEED`, and
strictly above `-10000` (the clamp runs before the off-road penalty, so the
lower bound `0` is not maintained; see the off-road claims). -/
theorem physStep_speed_mem (dt : ℚ) (cmd : Cmd) (st : GameState)
    (hdt0 : 0 ≤ dt) (hdt1 : dt ≤ 1) :
    -10000 < (physStep dt cmd st).speed ∧ (physStep dt cmd st).speed ≤ MAX_SPEED := by
  obtain ⟨h0, h1⟩ := clampSpeed_mem (speedInput dt cmd st.speed)
  simp only [physStep]
  split_ifs with hc
  · unfold OFF_ROAD_DECEL
    unfold MAX_SPEED at *
    obtain ⟨-, h2⟩ := hc
    exact ⟨by nlinarith, by nlinarith⟩
  · exact ⟨by unfold MAX_SPEED at *; linarith, h1⟩

theorem physStep_playerX_mem (dt : ℚ) (cmd : Cmd) (st : GameState) :
    -2 ≤ (physStep dt cmd st).playerX ∧ (physStep dt cmd st).playerX ≤ 2 := by
  simp only [physStep]
  exact clampX_mem _

theorem physStep_position_mem (dt : ℚ) (cmd : Cmd) (st : GameState)
    (hdt : 0 < dt) (hdt1 : dt ≤ 1)
    (hp0 : 0 ≤ st.position) (hp1 : st.position < trackLength st.segments)
    (hlen : 12000 < trackLength st.segments) :
    0 ≤ (physStep dt cmd st).position ∧
      (physStep dt cmd st).position < trackLength st.segments := by
  obtain ⟨hv0, hv1⟩ := physStep_speed_mem dt cmd st hdt.le hdt1
  have hb := mul_dt_bounds hdt hdt1 hv0 (by unfold MAX_SPEED at hv1; linarith)
  have : (physStep dt cmd st).position =
      wrapPos (trackLength st.segments) (st.position + (physStep dt cmd st).speed * dt) := by
    simp only [physStep]
  rw [this]
  exact wrapPos_mem (by linarith [hb.1]) (by linarith [hb.2])

/-! ## Lemmas: which fields the traffic and sprite passes touch -/

theorem updateTraffic_position (dt : ℚ) (st : GameState) :
    (updateTraffic dt st).position = st.position := rfl

theorem updateTraffic_playerX (dt : ℚ) (st : GameState) :
    (updateTraffic dt st).playerX = st.playerX := rfl

theorem updateTraffic_distanceRun (dt : ℚ) (st : GameState) :
    (updateTraffic dt st).distanceRun = st.distanceRun := rfl

theorem checkSpriteCollisions_position (st : GameState) :
    (checkSpriteCollisions st).position = st.position := by
  simp only [checkSpriteCollisions]
  split_ifs <;> rfl

theorem checkSpriteCollisions_playerX (st : GameState) :
    (checkSpriteCollisions st).playerX = st.playerX := by
  simp only [checkSpriteCollisions]
  split_ifs <;> rfl

theorem checkSpriteCollisions_segments (st : GameState) :
    (checkSpriteCollisions st).segments = st.segments := by
  simp only [checkSpriteCollisions]
  split_ifs <;> rfl

theorem checkSpriteCollisions_isGameOver_true {st : GameState} (h : st.isGameOver = true) :
    (checkSpriteCollisions st).isGameOver = true := by
  simp only [checkSpriteCollisions]
  split_ifs <;> simpa

theorem checkSpriteCollisions_speed_zero {st : GameState} (h : st.speed = 0) :
    (checkSpriteCollisions st).speed = 0 := by
  simp only [checkSpriteCollisions]
  split_ifs <;> simpa

theorem update_position_of_live (dt : ℚ) (cmd : Cmd) {st : GameState}
    (hgo : st.isGameOver = false) :
    (update dt cmd st).position = (physStep dt cmd st).position := by
  unfold update
  rw [hgo]
  simp only [Bool.false_eq_true, if_false]
  rw [checkSpriteCollisions_position, updateTraffic_position]

theorem update_playerX_of_live (dt : ℚ) (cmd : Cmd) {st : GameState}
    (hgo : st.isGameOver = false) :
    (update dt cmd st).playerX = (physStep dt cmd st).playerX := by
  unfold update
  rw [hgo]
  simp only [Bool.false_eq_true, if_false]
  rw [checkSpriteCollisions_playerX, updateTraffic_playerX]

/-! ## Lemmas: concrete runs on a freshly built empty track -/

theorem initState_eq (p : BuildPlan) (hs : ℚ) :
    initState p hs = ⟨0, 0, 0, 0, hs, 0, false, resetRoad p⟩ := rfl

theorem resetRoad_trackLength (p : BuildPlan) : trackLength (resetRoad p) = 400000 := by
  rw [trackLength, resetRoad_length]
  norm_num [TOTAL_SEGMENTS, SEGMENT_LENGTH]

theorem resetRoad_curve168 (p : BuildPlan) : curveAt (resetRoad p) (168 : ℚ) = 0 := by
  rw [curveAt_resetRoad p _ (k := 0) (by norm_num [TOTAL_SEGMENTS])
    (by unfold segIdx TOTAL_SEGMENTS SEGMENT_LENGTH; norm_num)]
  norm_num [segCurve]

theorem resetRoad_curve6168 (p : BuildPlan) : curveAt (resetRoad p) (6168 : ℚ) = 0 := by
  rw [curveAt_resetRoad p _ (k := 30) (by norm_num [TOTAL_SEGMENTS])
    (by unfold segIdx TOTAL_SEGMENTS SEGMENT_LENGTH; norm_num; rfl)]
  norm_num [segCurve]

theorem resetRoad_curve18168 (p : BuildPlan) : curveAt (resetRoad p) (18168 : ℚ) = 0 := by
  rw [curveAt_resetRoad p _ (k := 90) (by norm_num [TOTAL_SEGMENTS])
    (by unfold segIdx TOTAL_SEGMENTS SEGMENT_LENGTH; norm_num; rfl)]
  norm_num [segCurve]

theorem resetRoad_curve30168 (p : BuildPlan) : curveAt (resetRoad p) (30168 : ℚ) = 2 := by
  rw [curveAt_resetRoad p _ (k := 150) (by norm_num [TOTAL_SEGMENTS])
    (by unfold segIdx TOTAL_SEGMENTS SEGMENT_LENGTH; norm_num; rfl)]
  norm_num [segCurve]

/-- One full-throttle, full-left-steer second from a standing start on an
unoccupied track. -/
theorem stepA1 {segs : List Segment} (hc : ∀ seg ∈ segs, seg.cars = [])
    (hsp : ∀ seg ∈ segs, seg.sprites = []) (hlen : trackLength segs = 400000)
    (hcv : curveAt segs (168 : ℚ) = 0) :
    update 1 ⟨1, 1, 0⟩ ⟨0, 0, 0, 0, 0, 0, false, segs⟩ =
      ⟨6000, -1, 6000, 60, 0, 6000, false, segs⟩ := by
  rw [update_no_occupants rfl hc hsp]
  simp only [physStep]
  norm_num [speedInput, clampSpeed, steerDx, clampX, wrapPos, SEGMENT_LENGTH,
    MAX_SPEED, ACCEL, DECEL, BRAKING, OFF_ROAD_DECEL, CAMERA_DEPTH, hlen, hcv,
    GameState.mk.injEq]

/-- A second full-throttle, full-left second: the player leaves the road and
the off-road penalty (applied after the clamp) zeroes the speed exactly. -/
theorem stepA2 {segs : List Segment} (hc : ∀ seg ∈ segs, seg.cars = [])
    (hsp : ∀ seg ∈ segs, seg.sprites = []) (hlen : trackLength segs = 400000)
    (hcv : curveAt segs (6168 : ℚ) = 0) :
    update 1 ⟨1, 1, 0⟩ ⟨6000, -1, 6000, 60, 0, 6000, false, segs⟩ =
      ⟨6000, -2, 0, 60, 0, 6000, false, segs⟩ := by
  rw [update_no_occupants rfl hc hsp]
  simp only [physStep]
  norm_num [speedInput, clampSpeed, steerDx, clampX, wrapPos, SEGMENT_LENGTH,
    MAX_SPEED, ACCEL, DECEL, BRAKING, OFF_ROAD_DECEL, CAMERA_DEPTH, hlen, hcv,
    GameState.mk.injEq]

/-- Half a second of throttle while stranded off-road: acceleration raises
the speed to 3000, the clamp keeps it, then the off-road penalty subtracts
6000, leaving the speed negative. -/
theorem stepA3 {segs : List Segment} (hc : ∀ seg ∈ segs, seg.cars = [])
    (hsp : ∀ seg ∈ segs, seg.sprites = []) (hlen : trackLength segs = 400000)
    (hcv : curveAt segs (6168 : ℚ) = 0) :
    update (1/2) ⟨0, 1, 0⟩ ⟨6000, -2, 0, 60, 0, 6000, false, segs⟩ =
      ⟨4500, -2, -3000, 60, 0, 4500, false, segs⟩ := by
  rw [update_no_occupants rfl hc hsp]
  simp only [physStep]
  norm_num [speedInput, clampSpeed, steerDx, clampX, wrapPos, SEGMENT_LENGTH,
    MAX_SPEED, ACCEL, DECEL, BRAKING, OFF_ROAD_DECEL, CAMERA_DEPTH, hlen, hcv,
    GameState.mk.injEq]

/-- One full-throttle second, no steering, from a standing start. -/
theorem stepB1 {segs : List Segment} (hc : ∀ seg ∈ segs, seg.cars = [])
    (hsp : ∀ seg ∈ segs, seg.sprites = []) (hlen : trackLength segs = 400000)
    (hcv : curveAt segs (168 : ℚ) = 0) :
    update 1 ⟨0, 1, 0⟩ ⟨0, 0, 0, 0, 0, 0, false, segs⟩ =
      ⟨6000, 0, 6000, 60, 0, 6000, false, segs⟩ := by
  rw [update_no_occupants rfl hc hsp]
  simp only [physStep]
  norm_num [speedInput, clampSpeed, steerDx, clampX, wrapPos, SEGMENT_LENGTH,
    MAX_SPEED, ACCEL, DECEL, BRAKING, OFF_ROAD_DECEL, CAMERA_DEPTH, hlen, hcv,
    GameState.mk.injEq]

/-- A second full-throttle second, reaching top speed. -/
theorem stepB2 {segs : List Segment} (hc : ∀ seg ∈ segs, seg.cars = [])
    (hsp : ∀ seg ∈ segs, seg.sprites = []) (hlen : trackLength segs = 400000)
    (hcv : curveAt segs (6168 : ℚ) = 0) :
    update 1 ⟨0, 1, 0⟩ ⟨6000, 0, 6000, 60, 0, 6000, false, segs⟩ =
      ⟨18000, 0, 12000, 180, 0, 18000, false, segs⟩ := by
  rw [update_no_occupants rfl hc hsp]
  simp only [physStep]
  norm_num [speedInput, clampSpeed, steerDx, clampX, wrapPos, SEGMENT_LENGTH,
    MAX_SPEED, ACCEL, DECEL, BRAKING, OFF_ROAD_DECEL, CAMERA_DEPTH, hlen, hcv,
    GameState.mk.injEq]

/-- A third full-throttle second at top speed. -/
theorem stepB3 {segs : List Segment} (hc : ∀ seg ∈ segs, seg.cars = [])
    (hsp : ∀ seg ∈ segs, seg.sprites = []) (hlen : trackLength segs = 400000)
    (hcv : curveAt segs (18168 : ℚ) = 0) :
    update 1 ⟨0, 1, 0⟩ ⟨18000, 0, 12000, 180, 0, 18000, false, segs⟩ =
      ⟨30000, 0, 12000, 300, 0, 30000, false, segs⟩ := by
  rw [update_no_occupants rfl hc hsp]
  simp only [physStep]
  norm_num [speedInput, clampSpeed, steerDx, clampX, wrapPos, SEGMENT_LENGTH,
    MAX_SPEED, ACCEL, DECEL, BRAKING, OFF_ROAD_DECEL, CAMERA_DEPTH, hlen, hcv,
    GameState.mk.injEq]

/-- C1: the claimed invariant `speed ∈ [0, MAX_SPEED]` fails on the code: the
off-road penalty (src/game.js line 597) is applied after the clamp (line 589)
with no re-clamp, so from a freshly built (unoccupied) track the legal input
sequence "steer hard left at full throttle for two 1-second ticks, then hold
throttle for a 0.5-second tick" leaves the player off-road with speed -3000,
strictly below 0.  The spec's stated clamp invariant is clearly the intent;
the penalty's placement after the clamp line is the slip. -/
theorem C1_offroad_penalty_escapes_speed_clamp :
    (runSteps [((1:ℚ), ⟨1, 1, 0⟩), ((1:ℚ), ⟨1, 1, 0⟩), ((1:ℚ)/2, ⟨0, 1, 0⟩)]
        (initState plainPlan 0)).speed = -3000 ∧
    (runSteps [((1:ℚ), ⟨1, 1, 0⟩), ((1:ℚ), ⟨1, 1, 0⟩), ((1:ℚ)/2, ⟨0, 1, 0⟩)]
        (initState plainPlan 0)).speed < 0 := by
  have h : (runSteps [((1:ℚ), ⟨1, 1, 0⟩), ((1:ℚ), ⟨1, 1, 0⟩), ((1:ℚ)/2, ⟨0, 1, 0⟩)]
      (initState plainPlan 0)).speed = -3000 := by
    rw [initState_eq]
    simp only [runSteps, List.foldl]
    rw [stepA1 plainPlan_no_cars plainPlan_no_sprites (resetRoad_trackLength _)
        (resetRoad_curve168 _),
      stepA2 plainPlan_no_cars plainPlan_no_sprites (resetRoad_trackLength _)
        (resetRoad_curve6168 _),
      stepA3 plainPlan_no_cars plainPlan_no_sprites (resetRoad_trackLength _)
        (resetRoad_curve6168 _)]
  exact ⟨h, by rw [h]; norm_num⟩

set_option maxRecDepth 20000 in
/-- C4 counterexample: the claim "with zero steering input, nonzero curve,
and nonzero speed, the lateral offset still drifts" is false on the code.
After three full-throttle seconds from a fresh track the player sits on the
curve band (current curve 2) at top speed 12000, yet one further zero-steer
tick leaves `playerX` exactly unchanged: the curvature term of src/game.js
line 595 is `dx * curve * ratio * 0.1`, proportional to the steering
displacement `dx`, which is 0 when `steer = 0`. -/
theorem C4_counterexample_no_drift_without_steer :
    curveAt (runSteps [((1:ℚ), ⟨0, 1, 0⟩), ((1:ℚ), ⟨0, 1, 0⟩), ((1:ℚ), ⟨0, 1, 0⟩)]
        (initState plainPlan 0)).segments
      ((runSteps [((1:ℚ), ⟨0, 1, 0⟩), ((1:ℚ), ⟨0, 1, 0⟩), ((1:ℚ), ⟨0, 1, 0⟩)]
          (initState plainPlan 0)).position + CAMERA_DEPTH * SEGMENT_LENGTH) = 2 ∧
    (runSteps [((1:ℚ), ⟨0, 1, 0⟩), ((1:ℚ), ⟨0, 1, 0⟩), ((1:ℚ), ⟨0, 1, 0⟩)]
        (initState plainPlan 0)).speed = 12000 ∧
    (runSteps [((1:ℚ), ⟨0, 1, 0⟩), ((1:ℚ), ⟨0, 1, 0⟩), ((1:ℚ), ⟨0, 1, 0⟩),
        ((1:ℚ), ⟨0, 1, 0⟩)] (initState plainPlan 0)).playerX =
      (runSteps [((1:ℚ), ⟨0, 1, 0⟩), ((1:ℚ), ⟨0, 1, 0⟩), ((1:ℚ), ⟨0, 1, 0⟩)]
          (initState plainPlan 0)).playerX := by
  have hs3 : runSteps [((1:ℚ), ⟨0, 1, 0⟩), ((1:ℚ), ⟨0, 1, 0⟩), ((1:ℚ), ⟨0, 1, 0⟩)]
      (initState plainPlan 0) =
      ⟨30000, 0, 12000, 300, 0, 30000, false, resetRoad plainPlan⟩ := by
    rw [initState_eq]
    simp only [runSteps, List.foldl]
    rw [stepB1 plainPlan_no_cars plainPlan_no_sprites (resetRoad_trackLength _)
        (resetRoad_curve168 _),
      stepB2 plainPlan_no_cars plainPlan_no_sprites (resetRoad_trackLength _)
        (resetRoad_curve6168 _),
      stepB3 plainPlan_no_cars plainPlan_no_sprites (resetRoad_trackLength _)
        (resetRoad_curve18168 _)]
  have hs4 : runSteps [((1:ℚ), ⟨0, 1, 0⟩), ((1:ℚ), ⟨0, 1, 0⟩), ((1:ℚ), ⟨0, 1, 0⟩),
      ((1:ℚ), ⟨0, 1, 0⟩)] (initState plainPlan 0) =
      update 1 ⟨0, 1, 0⟩ (⟨30000, 0, 12000, 300, 0, 30000, false, resetRoad plainPlan⟩ :
        GameState) := by
    simp only [runSteps, List.foldl] at hs3 ⊢
    rw [hs3]
  refine ⟨?_, ?_, ?_⟩
  · rw [hs3]
    have h30 := resetRoad_curve30168 plainPlan
    norm_num [CAMERA_DEPTH, SEGMENT_LENGTH] at h30 ⊢
    exact h30
  · rw [hs3]
  · rw [hs3, hs4, update_playerX_of_live _ _ rfl]
    simp only [physStep]
    norm_num [steerDx, clampX]

set_option maxRecDepth 20000 in
/-- C3 counterexample: the step does not clamp command fields at entry.
With the player rolling straight at speed 6000 on a fresh track, one tick
with the malformed `steer = 1000` gives a different resulting `playerX`
(-1001/1000) from the same tick with the steer clamped to its documented
range (-1001/1000000): the raw out-of-range value feeds directly into the
lateral displacement of src/game.js line 591. -/
theorem C3_counterexample_no_entry_clamp :
    (update (1/1000) ⟨1000, 1, 0⟩ (runSteps [((1:ℚ), ⟨0, 1, 0⟩)]
        (initState plainPlan 0))).playerX ≠
    (update (1/1000) (clampCmdSpec ⟨1000, 1, 0⟩) (runSteps [((1:ℚ), ⟨0, 1, 0⟩)]
        (initState plainPlan 0))).playerX := by
  have hs1 : runSteps [((1:ℚ), ⟨0, 1, 0⟩)] (initState plainPlan 0) =
      ⟨6000, 0, 6000, 60, 0, 6000, false, resetRoad plainPlan⟩ := by
    rw [initState_eq]
    simp only [runSteps, List.foldl]
    rw [stepB1 plainPlan_no_cars plainPlan_no_sprites (resetRoad_trackLength _)
      (resetRoad_curve168 _)]
  have hcl : clampCmdSpec ⟨1000, 1, 0⟩ = ⟨1, 1, 0⟩ := by
    norm_num [clampCmdSpec]
  rw [hs1, hcl, update_playerX_of_live _ _ rfl, update_playerX_of_live _ _ rfl]
  simp only [physStep]
  have h6 := resetRoad_curve6168 plainPlan
  norm_num [speedInput, clampSpeed, steerDx, clampX, MAX_SPEED, ACCEL,
    CAMERA_DEPTH, SEGMENT_LENGTH] at h6 ⊢
  norm_num [h6]

/-- C10: when both `accel` and `brake` are positive, the speed update takes
only the acceleration branch (src/game.js line 585's `if` shadows line 586's
`else if`), and `brake` is read nowhere else, so the whole step result equals
the same step with `brake = 0`. -/
theorem C10_accel_shadows_brake (dt : ℚ) (cmd : Cmd) (st : GameState)
    (h : cmd.accel > 0) :
    update dt cmd st = update dt ⟨cmd.steer, cmd.accel, 0⟩ st := by
  have hsi : speedInput dt cmd st.speed = speedInput dt ⟨cmd.steer, cmd.accel, 0⟩ st.speed := by
    simp only [speedInput, if_pos h]
  have hps : physStep dt cmd st = physStep dt ⟨cmd.steer, cmd.accel, 0⟩ st := by
    simp only [physStep, hsi]
  unfold update
  rw [hps]

theorem C10_accel_shadows_brake_witness :
    ((⟨0, 1, 1⟩ : Cmd).accel > 0) ∧
    update 1 ⟨0, 1, 1⟩ ⟨0, 0, 0, 0, 0, 0, false, []⟩ =
      update 1 ⟨0, 1, 0⟩ ⟨0, 0, 0, 0, 0, 0, false, []⟩ :=
  ⟨by norm_num, C10_accel_shadows_brake 1 ⟨0, 1, 1⟩ ⟨0, 0, 0, 0, 0, 0, false, []⟩ (by norm_num)⟩

/-- C9: a world point whose camera-space depth is ≤ 0 projects to
`screen.scale = 0` with no perspective divide — the remaining screen fields
keep their previous values — and the renderer's per-segment draw test
rejects a segment whose near edge has that camera depth (it is at or behind
the camera plane, hence in particular behind the `CAMERA_DEPTH` cull plane). -/
theorem C9_depth_nonpositive_scale_zero_not_drawn (p : RPoint)
    (cameraX cameraY cameraZ cameraDepth width height roadWidth : ℚ)
    (h : p.worldZ - cameraZ ≤ 0) :
    (project p cameraX cameraY cameraZ cameraDepth width height roadWidth).screen.scale = 0 ∧
    (project p cameraX cameraY cameraZ cameraDepth width height roadWidth).screen.x =
      p.screen.x ∧
    (project p cameraX cameraY cameraZ cameraDepth width height roadWidth).screen.y =
      p.screen.y ∧
    (project p cameraX cameraY cameraZ cameraDepth width height roadWidth).screen.w =
      p.screen.w ∧
    (project p cameraX cameraY cameraZ cameraDepth width height roadWidth).camera.z =
      p.worldZ - cameraZ ∧
    ∀ p1sy p2sy maxY : ℤ,
      segmentDrawCond
        ((project p cameraX cameraY cameraZ cameraDepth width height roadWidth).camera.z)
        p1sy p2sy maxY = false := by
  simp only [project, if_pos h]
  refine ⟨trivial, trivial, trivial, trivial, trivial, ?_⟩
  intro p1sy p2sy maxY
  have hle : p.worldZ - cameraZ ≤ CAMERA_DEPTH := le_trans h (by norm_num [CAMERA_DEPTH])
  simp [segmentDrawCond, hle]

theorem C9_depth_nonpositive_witness :
    ((⟨0, 0, 5, ⟨0, 0, 0⟩, ⟨3, 11, 12, 13⟩⟩ : RPoint).worldZ - 9 ≤ 0) ∧
    ((project ⟨0, 0, 5, ⟨0, 0, 0⟩, ⟨3, 11, 12, 13⟩⟩ 0 0 9 (84/100) 800 600 2000).screen.scale
        = 0 ∧
      (project ⟨0, 0, 5, ⟨0, 0, 0⟩, ⟨3, 11, 12, 13⟩⟩ 0 0 9 (84/100) 800 600 2000).screen.x
        = (⟨0, 0, 5, ⟨0, 0, 0⟩, ⟨3, 11, 12, 13⟩⟩ : RPoint).screen.x ∧
      (project ⟨0, 0, 5, ⟨0, 0, 0⟩, ⟨3, 11, 12, 13⟩⟩ 0 0 9 (84/100) 800 600 2000).screen.y
        = (⟨0, 0, 5, ⟨0, 0, 0⟩, ⟨3, 11, 12, 13⟩⟩ : RPoint).screen.y ∧
      (project ⟨0, 0, 5, ⟨0, 0, 0⟩, ⟨3, 11, 12, 13⟩⟩ 0 0 9 (84/100) 800 600 2000).screen.w
        = (⟨0, 0, 5, ⟨0, 0, 0⟩, ⟨3, 11, 12, 13⟩⟩ : RPoint).screen.w ∧
      (project ⟨0, 0, 5, ⟨0, 0, 0⟩, ⟨3, 11, 12, 13⟩⟩ 0 0 9 (84/100) 800 600 2000).camera.z
        = (⟨0, 0, 5, ⟨0, 0, 0⟩, ⟨3, 11, 12, 13⟩⟩ : RPoint).worldZ - 9 ∧
      ∀ p1sy p2sy maxY : ℤ,
        segmentDrawCond
          ((project ⟨0, 0, 5, ⟨0, 0, 0⟩, ⟨3, 11, 12, 13⟩⟩ 0 0 9 (84/100) 800 600 2000).camera.z)
          p1sy p2sy maxY = false) :=
  ⟨by norm_num,
   C9_depth_nonpositive_scale_zero_not_drawn ⟨0, 0, 5, ⟨0, 0, 0⟩, ⟨3, 11, 12, 13⟩⟩
     0 0 9 (84/100) 800 600 2000 (by norm_num)⟩

/-- C4 (amended): the lateral update of each live tick subtracts the steering
displacement `dx = dt·2·steer·(speed₂/MAX_SPEED)` and then the curvature term
`dx · curve · (oldSpeed/MAX_SPEED) · 0.1` (src/game.js lines 591-595), then
clamps to [-2,2].  The curvature term scales with the steering displacement
itself, not with speed alone, so with `steer = 0` the lateral offset is
unchanged apart from the clamp. -/
theorem C4_amended_curvature_term_scales_with_dx (dt : ℚ) (cmd : Cmd) (st : GameState)
    (hgo : st.isGameOver = false) :
    (update dt cmd st).playerX =
      clampX (st.playerX - steerDx dt cmd.steer (clampSpeed (speedInput dt cmd st.speed)) -
        steerDx dt cmd.steer (clampSpeed (speedInput dt cmd st.speed)) *
          curveAt st.segments (st.position + CAMERA_DEPTH * SEGMENT_LENGTH) *
          (st.speed / MAX_SPEED) * (1/10)) ∧
    (cmd.steer = 0 → (update dt cmd st).playerX = clampX st.playerX) := by
  have h1 : (update dt cmd st).playerX =
      clampX (st.playerX - steerDx dt cmd.steer (clampSpeed (speedInput dt cmd st.speed)) -
        steerDx dt cmd.steer (clampSpeed (speedInput dt cmd st.speed)) *
          curveAt st.segments (st.position + CAMERA_DEPTH * SEGMENT_LENGTH) *
          (st.speed / MAX_SPEED) * (1/10)) := by
    rw [update_playerX_of_live _ _ hgo]
    simp only [physStep]
  refine ⟨h1, fun hs => ?_⟩
  rw [h1, hs]
  simp [steerDx]

theorem C4_amended_witness :
    ((⟨7, 5, 0, 0, 0, 0, false, []⟩ : GameState).isGameOver = false) ∧
    ((update 1 ⟨0, 0, 0⟩ ⟨7, 5, 0, 0, 0, 0, false, []⟩).playerX =
      clampX ((5 : ℚ) - steerDx 1 (0:ℚ) (clampSpeed (speedInput 1 ⟨0, 0, 0⟩ 0)) -
        steerDx 1 (0:ℚ) (clampSpeed (speedInput 1 ⟨0, 0, 0⟩ 0)) *
          curveAt [] ((7:ℚ) + CAMERA_DEPTH * SEGMENT_LENGTH) * ((0:ℚ) / MAX_SPEED) * (1/10)) ∧
      ((⟨0, 0, 0⟩ : Cmd).steer = 0 →
        (update 1 ⟨0, 0, 0⟩ ⟨7, 5, 0, 0, 0, 0, false, []⟩).playerX = clampX 5)) :=
  ⟨rfl, C4_amended_curvature_term_scales_with_dx 1 ⟨0, 0, 0⟩ ⟨7, 5, 0, 0, 0, 0, false, []⟩ rfl⟩

/-- C3 (amended): `update` applies no clamping to the incoming command
fields; instead the derived state is clamped after the update, so for
arbitrary finite command values (in range or not) a live state keeps
`playerX` in [-2,2] and `position` normalized in [0, trackLength).  (NaN
propagation is floating-point behaviour outside this rational model; the
code contains no entry-boundary clamp that would stop it.) -/
theorem C3_amended_state_clamped_not_input (dt : ℚ) (cmd : Cmd) (st : GameState)
    (hdt : 0 < dt) (hdt1 : dt ≤ 1) (hgo : st.isGameOver = false)
    (hp0 : 0 ≤ st.position) (hp1 : st.position < trackLength st.segments)
    (hlen : 12000 < trackLength st.segments) :
    (-2 ≤ (update dt cmd st).playerX ∧ (update dt cmd st).playerX ≤ 2) ∧
    (0 ≤ (update dt cmd st).position ∧
      (update dt cmd st).position < trackLength st.segments) := by
  rw [update_playerX_of_live _ _ hgo, update_position_of_live _ _ hgo]
  exact ⟨physStep_playerX_mem dt cmd st,
    physStep_position_mem dt cmd st hdt hdt1 hp0 hp1 hlen⟩

theorem C3_amended_witness :
    ((0:ℚ) < 1 ∧ (1:ℚ) ≤ 1 ∧
      (⟨100, 0, 0, 0, 0, 0, false, List.replicate 61 ⟨0, 0, [], []⟩⟩ :
          GameState).isGameOver = false ∧
      (0:ℚ) ≤ 100 ∧
      (100:ℚ) < trackLength (List.replicate 61 ⟨0, 0, [], []⟩) ∧
      (12000:ℚ) < trackLength (List.replicate 61 ⟨0, 0, [], []⟩)) ∧
    ((-2 ≤ (update 1 ⟨9999, -42, 1/3⟩
          ⟨100, 0, 0, 0, 0, 0, false, List.replicate 61 ⟨0, 0, [], []⟩⟩).playerX ∧
        (update 1 ⟨9999, -42, 1/3⟩
          ⟨100, 0, 0, 0, 0, 0, false, List.replicate 61 ⟨0, 0, [], []⟩⟩).playerX ≤ 2) ∧
      (0 ≤ (update 1 ⟨9999, -42, 1/3⟩
          ⟨100, 0, 0, 0, 0, 0, false, List.replicate 61 ⟨0, 0, [], []⟩⟩).position ∧
        (update 1 ⟨9999, -42, 1/3⟩
            ⟨100, 0, 0, 0, 0, 0, false, List.replicate 61 ⟨0, 0, [], []⟩⟩).position <
          trackLength (List.replicate 61 ⟨0, 0, [], []⟩))) := by
  have hlen : trackLength (List.replicate 61 (⟨0, 0, [], []⟩ : Segment)) = 12200 := by
    rw [trackLength]
    norm_num [SEGMENT_LENGTH]
  refine ⟨⟨by norm_num, by norm_num, rfl, by norm_num, by rw [hlen]; norm_num,
    by rw [hlen]; norm_num⟩, ?_⟩
  exact C3_amended_state_clamped_not_input 1 ⟨9999, -42, 1/3⟩
    ⟨100, 0, 0, 0, 0, 0, false, List.replicate 61 ⟨0, 0, [], []⟩⟩
    (by norm_num) (by norm_num) rfl (by norm_num) (by rw [hlen]; norm_num)
    (by rw [hlen]; norm_num)

/-! ## Lemmas: overtake bonus bookkeeping -/

theorem procCarPhys_score (ctx : CarCtx) (ph : Phys) (c : Car) :
    (procCarPhys ctx ph c).score =
      ph.score + (if closeCallCond ctx c then (500 : ℚ) else 0) := by
  unfold procCarPhys crashPhys
  split_ifs <;> simp

theorem closeCall_sets_flag {ctx : CarCtx} {c : Car} (h : closeCallCond ctx c) :
    (advCar ctx c).justPassed = true := by
  have habs : |carDist ctx (advCarZ ctx c)| ≤ 1000 := by
    rw [abs_le]
    obtain ⟨h1, h2, -⟩ := h
    constructor <;> linarith
  unfold advCar
  simp only [if_pos h, if_neg (not_lt.mpr habs)]

theorem closeCall_flag_clear {ctx : CarCtx} {c : Car} (h : closeCallCond ctx c) :
    c.justPassed = false := h.2.2.1

theorem not_closeCall_of_passed {ctx : CarCtx} {c : Car} (h : c.justPassed = true) :
    ¬ closeCallCond ctx c := by
  intro hc
  rw [closeCall_flag_clear hc] at h
  exact Bool.false_ne_true h

theorem advCar_flag_of_passed {ctx : CarCtx} {c : Car} (h : c.justPassed = true) :
    (advCar ctx c).justPassed =
      (if 1000 < |carDist ctx (advCarZ ctx c)| then false else true) := by
  unfold advCar
  split_ifs with h1 h2 h2 <;> simp_all

theorem bonusCount_zero_of_passed {c : Car} {ctxs : List CarCtx}
    (h : c.justPassed = true) (hnr : NoReset c ctxs) : bonusCount c ctxs = 0 := by
  induction ctxs generalizing c with
  | nil => rfl
  | cons ctx rest ih =>
    obtain ⟨hd, htl⟩ := hnr
    have hflag : (advCar ctx c).justPassed = true := by
      rw [advCar_flag_of_passed h, if_neg (not_lt.mpr hd)]
    unfold bonusCount
    rw [if_neg (not_closeCall_of_passed h), ih hflag htl]

theorem bonusCount_le_one {c : Car} {ctxs : List CarCtx} (hnr : NoReset c ctxs) :
    bonusCount c ctxs ≤ 1 := by
  induction ctxs generalizing c with
  | nil => exact Nat.zero_le 1
  | cons ctx rest ih =>
    obtain ⟨hd, htl⟩ := hnr
    unfold bonusCount
    by_cases hcc : closeCallCond ctx c
    · rw [if_pos hcc, bonusCount_zero_of_passed (closeCall_sets_flag hcc) htl]
    · rw [if_neg hcc]
      simpa using ih htl

/-- C7: the overtake bonus bookkeeping.  (a) Each car contributes exactly
+500 to the score in a tick precisely when its close-call condition fires;
(b) the condition only fires with the `justPassed` flag clear, strictly
inside the (-300,-100) depth window and the (0.35, 0.8) lateral band, and
firing sets the flag; (c) a set flag blocks the bonus; (d) a set flag clears
after a tick exactly when the wrapped distance exceeds the reset threshold
1000; (e) over any run of ticks in which the distance never exceeds 1000
(a single approach), the bonus fires at most once. -/
theorem C7_overtake_bonus_once_per_approach :
    (∀ (ctx : CarCtx) (ph : Phys) (c : Car),
      (procCarPhys ctx ph c).score =
        ph.score + (if closeCallCond ctx c then (500 : ℚ) else 0)) ∧
    (∀ (ctx : CarCtx) (c : Car), closeCallCond ctx c →
      c.justPassed = false ∧
      carDist ctx (advCarZ ctx c) < -100 ∧ -300 < carDist ctx (advCarZ ctx c) ∧
      |ctx.playerX - c.offset| < 8/10 ∧ 35/100 < |ctx.playerX - c.offset| ∧
      (advCar ctx c).justPassed = true) ∧
    (∀ (ctx : CarCtx) (c : Car), c.justPassed = true → ¬ closeCallCond ctx c) ∧
    (∀ (ctx : CarCtx) (c : Car), c.justPassed = true →
      ((advCar ctx c).justPassed = false ↔ 1000 < |carDist ctx (advCarZ ctx c)|)) ∧
    (∀ (c : Car) (ctxs : List CarCtx), NoReset c ctxs → bonusCount c ctxs ≤ 1) := by
  refine ⟨procCarPhys_score, ?_, fun ctx c h => not_closeCall_of_passed h, ?_, ?_⟩
  · intro ctx c h
    exact ⟨closeCall_flag_clear h, h.1, h.2.1, h.2.2.2.1, h.2.2.2.2,
      closeCall_sets_flag h⟩
  · intro ctx c h
    rw [advCar_flag_of_passed h]
    split_ifs with h1 <;> simp [h1]
  · exact fun c ctxs hnr => bonusCount_le_one hnr

/-! ## Lemmas: collision analysis -/

theorem physStep_segments (dt : ℚ) (cmd : Cmd) (st : GameState) :
    (physStep dt cmd st).segments = st.segments := rfl

theorem physStep_isGameOver (dt : ℚ) (cmd : Cmd) (st : GameState) :
    (physStep dt cmd st).isGameOver = st.isGameOver := rfl

theorem physStep_score (dt : ℚ) (cmd : Cmd) (st : GameState) :
    (physStep dt cmd st).score = st.score := rfl

theorem physStep_highScore (dt : ℚ) (cmd : Cmd) (st : GameState) :
    (physStep dt cmd st).highScore = st.highScore := rfl

theorem updateTraffic_isGameOver (dt : ℚ) (st : GameState) :
    (updateTraffic dt st).isGameOver =
      (trafficPhys (trafficCtx dt st) ⟨st.speed, st.score, st.highScore, st.isGameOver⟩
        st.segments).isGameOver := rfl

theorem updateTraffic_speed (dt : ℚ) (st : GameState) :
    (updateTraffic dt st).speed =
      (trafficPhys (trafficCtx dt st) ⟨st.speed, st.score, st.highScore, st.isGameOver⟩
        st.segments).speed := rfl

theorem updateTraffic_highScore (dt : ℚ) (st : GameState) :
    (updateTraffic dt st).highScore =
      (trafficPhys (trafficCtx dt st) ⟨st.speed, st.score, st.highScore, st.isGameOver⟩
        st.segments).highScore := rfl

theorem updateTraffic_score (dt : ℚ) (st : GameState) :
    (updateTraffic dt st).score =
      (if (trafficPhys (trafficCtx dt st) ⟨st.speed, st.score, st.highScore, st.isGameOver⟩
            st.segments).speed > 0 then
        (trafficPhys (trafficCtx dt st) ⟨st.speed, st.score, st.highScore, st.isGameOver⟩
            st.segments).score +
          ((trafficPhys (trafficCtx dt st) ⟨st.speed, st.score, st.highScore, st.isGameOver⟩
              st.segments).speed / 1000) * dt * 10
      else (trafficPhys (trafficCtx dt st) ⟨st.speed, st.score, st.highScore, st.isGameOver⟩
          st.segments).score) := rfl

theorem trafficPhys_eq_foldl_allCars (ctx : CarCtx) (ph : Phys) (segs : List Segment) :
    trafficPhys ctx ph segs = (allCars segs).foldl (procCarPhys ctx) ph := by
  induction segs generalizing ph with
  | nil => rfl
  | cons s r ih =>
    unfold trafficPhys allCars
    rw [List.foldl_cons, List.foldl_append]
    exact ih _

/-- Narrow player box versus car box: lateral separation strictly above the
half-width sum 0.3 means no overlap. -/
theorem overlap_false_of_gap {x o : ℚ} (h : 3/10 < |x - o|) :
    overlap x (15/100) o (45/100) = false := by
  simp only [overlap, Bool.not_eq_false', Bool.or_eq_true, decide_eq_true_eq]
  rcases lt_abs.mp h with h1 | h1
  · right; linarith
  · left; linarith

/-- Equal centers always overlap (any of the game's nonnegative widths). -/
theorem overlap_same_center (x : ℚ) : overlap x (15/100) x (45/100) = true := by
  simp only [overlap, Bool.not_eq_true', Bool.or_eq_false_iff, decide_eq_false_iff_not, not_lt,
    gt_iff_lt]
  constructor <;> linarith

theorem procCarPhys_not_hit {ctx : CarCtx} {c : Car} (h : ¬ hitCond ctx c) (ph : Phys) :
    (procCarPhys ctx ph c).isGameOver = ph.isGameOver ∧
    (procCarPhys ctx ph c).speed = ph.speed ∧
    (procCarPhys ctx ph c).highScore = ph.highScore := by
  unfold procCarPhys
  rw [if_neg h]
  split_ifs <;> exact ⟨rfl, rfl, rfl⟩

theorem procCarPhys_hit {ctx : CarCtx} {c : Car} (hh : hitCond ctx c)
    (hcc : ¬ closeCallCond ctx c) (ph : Phys) : procCarPhys ctx ph c = crashPhys ph := by
  unfold procCarPhys
  rw [if_neg hcc, if_pos hh]

theorem applyMove_sprites {segs : List Segment} {m : Move}
    (h : ∀ seg ∈ segs, seg.sprites = []) : ∀ seg ∈ applyMove segs m, seg.sprites = [] := by
  unfold applyMove
  cases h1 : segs.get? m.src.toNat with
  | none => exact h
  | some srcSeg =>
    dsimp only
    cases h2 : extractFirstId m.carId srcSeg.cars with
    | none => exact h
    | some pr =>
      dsimp only
      have hsrc : srcSeg ∈ segs := List.get?_mem h1
      have hs1 : ∀ seg ∈ segs.set m.src.toNat { srcSeg with cars := pr.2 },
          seg.sprites = [] := by
        intro seg hseg
        rcases List.mem_or_eq_of_mem_set hseg with hm | rfl
        · exact h seg hm
        · exact h srcSeg hsrc
      obtain ⟨c0, rest0⟩ := pr
      cases h3 : (segs.set m.src.toNat { srcSeg with cars := rest0 }).get? m.dst.toNat with
      | none => exact hs1
      | some dstSeg =>
        dsimp only
        intro seg hseg
        rcases List.mem_or_eq_of_mem_set hseg with hm | rfl
        · exact hs1 seg hm
        · exact hs1 dstSeg (List.get?_mem h3)

theorem applyMoves_sprites {segs : List Segment} {moves : List Move}
    (h : ∀ seg ∈ segs, seg.sprites = []) :
    ∀ seg ∈ applyMoves segs moves, seg.sprites = [] := by
  induction moves generalizing segs with
  | nil => exact h
  | cons m rest ih => exact ih (applyMove_sprites h)

theorem updateTraffic_sprites {st : GameState} (h : ∀ seg ∈ st.segments, seg.sprites = [])
    (dt : ℚ) : ∀ seg ∈ (updateTraffic dt st).segments, seg.sprites = [] := by
  refine applyMoves_sprites ?_
  intro seg hseg
  obtain ⟨s0, hs0, rfl⟩ := List.mem_map.mp hseg
  exact h s0 hs0

theorem checkSpriteCollisions_cases (s : GameState) :
    checkSpriteCollisions s = s ∨
    checkSpriteCollisions s =
      { s with
        speed := 0
        isGameOver := true
        highScore := if s.score > s.highScore then ((⌊s.score⌋ : ℤ) : ℚ) else s.highScore } := by
  simp only [checkSpriteCollisions]
  split_ifs <;> first | (left; rfl) | (right; rfl)

/-- Crashing twice with the same score leaves the high score of the first
crash unchanged. -/
theorem crash_highScore_idem (sc hs : ℚ) :
    (if sc > (if sc > hs then ((⌊sc⌋ : ℤ) : ℚ) else hs) then ((⌊sc⌋ : ℤ) : ℚ)
      else (if sc > hs then ((⌊sc⌋ : ℤ) : ℚ) else hs)) =
    (if sc > hs then ((⌊sc⌋ : ℤ) : ℚ) else hs) := by
  split_ifs with h1 h2 <;> first | rfl | linarith

/-- C5 (amended): lane splitting works.  With exactly two cars on the track,
each laterally separated from the player's post-physics offset by strictly
more than 0.3 (the half-width sum of the narrow 0.15 player box and the 0.45
car box — the scenario's ±0.65-lane cars against a centred player qualify),
no collision is detected against either car and the step triggers no crash,
regardless of depth proximity.  The claim's aside that equal-width hitboxes
would overlap at this separation is false — see the counterexample, which
shows 0.45-wide boxes 0.65 apart are disjoint too. -/
theorem C5_amended_lane_splitting (dt : ℚ) (cmd : Cmd) (st : GameState) (a b : Car)
    (hgo : st.isGameOver = false)
    (hcars : allCars st.segments = [a, b])
    (hsp : ∀ seg ∈ st.segments, seg.sprites = [])
    (ha : 3/10 < |(physStep dt cmd st).playerX - a.offset|)
    (hb : 3/10 < |(physStep dt cmd st).playerX - b.offset|) :
    ¬ hitCond (trafficCtx dt (physStep dt cmd st)) a ∧
    ¬ hitCond (trafficCtx dt (physStep dt cmd st)) b ∧
    (update dt cmd st).isGameOver = false := by
  have hna : ¬ hitCond (trafficCtx dt (physStep dt cmd st)) a := by
    intro hh
    have := hh.2
    rw [show (trafficCtx dt (physStep dt cmd st)).playerX = (physStep dt cmd st).playerX
        from rfl, overlap_false_of_gap ha] at this
    exact Bool.false_ne_true this
  have hnb : ¬ hitCond (trafficCtx dt (physStep dt cmd st)) b := by
    intro hh
    have := hh.2
    rw [show (trafficCtx dt (physStep dt cmd st)).playerX = (physStep dt cmd st).playerX
        from rfl, overlap_false_of_gap hb] at this
    exact Bool.false_ne_true this
  refine ⟨hna, hnb, ?_⟩
  unfold update
  rw [hgo]
  simp only [Bool.false_eq_true, if_false]
  have hsp1 : ∀ seg ∈ (physStep dt cmd st).segments, seg.sprites = [] := by
    rw [physStep_segments]; exact hsp
  have hsp2 : ∀ seg ∈ (updateTraffic dt (physStep dt cmd st)).segments, seg.sprites = [] :=
    updateTraffic_sprites hsp1 dt
  rw [checkSpriteCollisions_no_sprites hsp2, updateTraffic_isGameOver,
    trafficPhys_eq_foldl_allCars, physStep_segments, hcars]
  simp only [List.foldl]
  rw [(procCarPhys_not_hit hnb _).1, (procCarPhys_not_hit hna _).1]
  rw [show (⟨(physStep dt cmd st).speed, (physStep dt cmd st).score,
      (physStep dt cmd st).highScore, (physStep dt cmd st).isGameOver⟩ : Phys).isGameOver =
    (physStep dt cmd st).isGameOver from rfl, physStep_isGameOver]
  exact hgo

/-- C6: with exactly one car on the track, when the player's (post-physics)
lateral offset equals that car's offset and their wrapped relative depth is
within 200 units, the step crashes: `isGameOver` latches true, speed resets
to 0, and the persisted high score becomes `floor(score)` exactly when the
current score exceeds the prior best. -/
theorem C6_equal_offset_within_200_crashes (dt : ℚ) (cmd : Cmd) (st : GameState) (c : Car)
    (hgo : st.isGameOver = false)
    (hcars : allCars st.segments = [c])
    (hoff : c.offset = (physStep dt cmd st).playerX)
    (hdist : |carDist (trafficCtx dt (physStep dt cmd st))
        (advCarZ (trafficCtx dt (physStep dt cmd st)) c)| < 200) :
    (update dt cmd st).isGameOver = true ∧
    (update dt cmd st).speed = 0 ∧
    (update dt cmd st).highScore =
      (if st.score > st.highScore then ((⌊st.score⌋ : ℤ) : ℚ) else st.highScore) := by
  have hpx : (trafficCtx dt (physStep dt cmd st)).playerX = (physStep dt cmd st).playerX := rfl
  have hhit : hitCond (trafficCtx dt (physStep dt cmd st)) c := by
    refine ⟨hdist, ?_⟩
    rw [hpx, ← hoff]
    exact overlap_same_center c.offset
  have hncc : ¬ closeCallCond (trafficCtx dt (physStep dt cmd st)) c := by
    intro hcc
    have hband := hcc.2.2.2.2
    rw [hpx, ← hoff] at hband
    simp only [sub_self, abs_zero] at hband
    norm_num at hband
  have htr : trafficPhys (trafficCtx dt (physStep dt cmd st))
      ⟨(physStep dt cmd st).speed, (physStep dt cmd st).score,
        (physStep dt cmd st).highScore, (physStep dt cmd st).isGameOver⟩
      (physStep dt cmd st).segments =
      crashPhys ⟨(physStep dt cmd st).speed, (physStep dt cmd st).score,
        (physStep dt cmd st).highScore, (physStep dt cmd st).isGameOver⟩ := by
    rw [trafficPhys_eq_foldl_allCars, physStep_segments, hcars]
    simp only [List.foldl]
    rw [procCarPhys_hit hhit hncc]
  have hio : (updateTraffic dt (physStep dt cmd st)).isGameOver = true := by
    rw [updateTraffic_isGameOver, htr]
    rfl
  have hsp0 : (updateTraffic dt (physStep dt cmd st)).speed = 0 := by
    rw [updateTraffic_speed, htr]
    rfl
  have hsc : (updateTraffic dt (physStep dt cmd st)).score = st.score := by
    rw [updateTraffic_score, htr]
    norm_num [crashPhys]
    exact physStep_score dt cmd st
  have hhs : (updateTraffic dt (physStep dt cmd st)).highScore =
      (if st.score > st.highScore then ((⌊st.score⌋ : ℤ) : ℚ) else st.highScore) := by
    rw [updateTraffic_highScore, htr]
    rfl
  unfold update
  rw [hgo]
  simp only [Bool.false_eq_true, if_false]
  rcases checkSpriteCollisions_cases (updateTraffic dt (physStep dt cmd st)) with hca | hca <;>
    rw [hca]
  · exact ⟨hio, hsp0, hhs⟩
  · refine ⟨rfl, rfl, ?_⟩
    simp only
    rw [hsc, hhs]
    exact crash_highScore_idem st.score st.highScore

/-! ## Lemmas: the migration machinery -/

theorem extractFirstId_mem {idv : ℕ} :
    ∀ {l : List Car} {c : Car} {rest : List Car}, extractFirstId idv l = some (c, rest) →
      c.id = idv ∧ ∃ l₁ l₂, l = l₁ ++ c :: l₂ ∧ rest = l₁ ++ l₂ := by
  intro l
  induction l with
  | nil => intro c rest h; exact absurd h (by simp [extractFirstId])
  | cons x xs ih =>
    intro c rest h
    unfold extractFirstId at h
    split_ifs at h with hx
    · obtain ⟨rfl, rfl⟩ := Prod.mk.injEq .. ▸ Option.some.injEq .. ▸ h
      exact ⟨hx, [], xs, rfl, rfl⟩
    · cases h2 : extractFirstId idv xs with
      | none => rw [h2] at h; exact absurd h (by simp)
      | some pr =>
        rw [h2] at h
        obtain ⟨c2, rest2⟩ := pr
        simp only [Option.some.injEq, Prod.mk.injEq] at h
        obtain ⟨rfl, rfl⟩ := h
        obtain ⟨hid, l₁, l₂, hsplit, hrest⟩ := ih h2
        exact ⟨hid, x :: l₁, l₂, by rw [hsplit]; rfl, by rw [hrest]; rfl⟩

theorem extractFirstId_isSome {idv : ℕ} :
    ∀ {l : List Car}, (∃ c ∈ l, c.id = idv) → (extractFirstId idv l).isSome := by
  intro l
  induction l with
  | nil => rintro ⟨c, hc, -⟩; exact absurd hc (List.not_mem_nil c)
  | cons x xs ih =>
    rintro ⟨c, hc, hcid⟩
    unfold extractFirstId
    split_ifs with hx
    · rfl
    · rcases List.mem_cons.mp hc with rfl | hc2
      · exact absurd hcid hx
      · have := ih ⟨c, hc2, hcid⟩
        cases h2 : extractFirstId idv xs with
        | none => rw [h2] at this; exact absurd this (by simp)
        | some pr => simp

/-- Evaluate one migration step once the lookups are known. -/
theorem applyMove_eval {segs : List Segment} {m : Move} {srcSeg : Segment} {c : Car}
    {rest : List Car} {dstSeg : Segment}
    (h1 : segs.get? m.src.toNat = some srcSeg)
    (h2 : extractFirstId m.carId srcSeg.cars = some (c, rest))
    (h3 : (segs.set m.src.toNat { srcSeg with cars := rest }).get? m.dst.toNat = some dstSeg) :
    applyMove segs m =
      (segs.set m.src.toNat { srcSeg with cars := rest }).set m.dst.toNat
        { dstSeg with cars := dstSeg.cars ++ [c] } := by
  unfold applyMove
  rw [h1]
  dsimp only
  rw [h2]
  dsimp only
  rw [h3]

theorem applyMove_length (segs : List Segment) (m : Move) :
    (applyMove segs m).length = segs.length := by
  unfold applyMove
  cases h1 : segs.get? m.src.toNat with
  | none => rfl
  | some srcSeg =>
    dsimp only
    cases h2 : extractFirstId m.carId srcSeg.cars with
    | none => rfl
    | some pr =>
      dsimp only
      obtain ⟨c0, rest0⟩ := pr
      cases h3 : (segs.set m.src.toNat { srcSeg with cars := rest0 }).get? m.dst.toNat with
      | none => simp [List.length_set]
      | some dstSeg => simp [List.length_set]

theorem applyMoves_length (moves : List Move) (segs : List Segment) :
    (applyMoves segs moves).length = segs.length := by
  induction moves generalizing segs with
  | nil => rfl
  | cons m rest ih =>
    unfold applyMoves at *
    rw [List.foldl_cons, ih, applyMove_length]

theorem mem_allCars_of_mem_seg {segs : List Segment} {seg : Segment} {c : Car}
    (hs : seg ∈ segs) (hc : c ∈ seg.cars) : c ∈ allCars segs := by
  induction segs with
  | nil => exact absurd hs (List.not_mem_nil seg)
  | cons s r ih =>
    rcases List.mem_cons.mp hs with rfl | hs2
    · exact List.mem_append_left _ hc
    · exact List.mem_append_right _ (ih hs2)

theorem allCars_set_subset {a : Car} :
    ∀ {l : List Segment} {j : ℕ} {s' : Segment}, a ∈ allCars (l.set j s') →
      a ∈ s'.cars ∨ a ∈ allCars l := by
  intro l
  induction l with
  | nil => intro j s' h; right; exact h
  | cons x xs ih =>
    intro j s' h
    match j with
    | 0 =>
      rcases List.mem_append.mp h with h1 | h1
      · exact Or.inl h1
      · exact Or.inr (List.mem_append_right _ h1)
    | j + 1 =>
      rcases List.mem_append.mp h with h1 | h1
      · exact Or.inr (List.mem_append_left _ h1)
      · rcases ih h1 with h2 | h2
        · exact Or.inl h2
        · exact Or.inr (List.mem_append_right _ h2)

theorem applyMove_allCars_subset {segs : List Segment} {m : Move} {a : Car}
    (h : a ∈ allCars (applyMove segs m)) : a ∈ allCars segs := by
  revert h
  unfold applyMove
  cases h1 : segs.get? m.src.toNat with
  | none => exact id
  | some srcSeg =>
    dsimp only
    cases h2 : extractFirstId m.carId srcSeg.cars with
    | none => exact id
    | some pr =>
      dsimp only
      obtain ⟨c0, rest0⟩ := pr
      obtain ⟨-, l₁, l₂, hsplit, hrest⟩ := extractFirstId_mem h2
      have hsrc : srcSeg ∈ segs := List.get?_mem h1
      have hsub1 : ∀ b : Car, b ∈ allCars (segs.set m.src.toNat { srcSeg with cars := rest0 }) →
          b ∈ allCars segs := by
        intro b hb
        rcases allCars_set_subset hb with hb1 | hb1
        · refine mem_allCars_of_mem_seg hsrc ?_
          rw [hsplit]
          simp only [hrest] at hb1
          rcases List.mem_append.mp hb1 with h | h
          · exact List.mem_append_left _ h
          · exact List.mem_append_right _ (List.mem_cons_of_mem _ h)
        · exact hb1
      cases h3 : (segs.set m.src.toNat { srcSeg with cars := rest0 }).get? m.dst.toNat with
      | none => exact fun hb => hsub1 a hb
      | some dstSeg =>
        dsimp only
        intro hb
        rcases allCars_set_subset hb with hb1 | hb1
        · rcases List.mem_append.mp hb1 with h | h
          · exact hsub1 a (mem_allCars_of_mem_seg (List.get?_mem h3) h)
          · have : a = c0 := List.mem_singleton.mp h
            subst this
            refine mem_allCars_of_mem_seg hsrc ?_
            rw [hsplit]
            exact List.mem_append_right _ (List.mem_cons_self _ _)
        · exact hsub1 a hb1

theorem applyMoves_allCars_subset {moves : List Move} :
    ∀ {segs : List Segment} {a : Car}, a ∈ allCars (applyMoves segs moves) →
      a ∈ allCars segs := by
  induction moves with
  | nil => exact fun h => h
  | cons m rest ih =>
    intro segs a h
    exact applyMove_allCars_subset (ih h)

/-- Every car on the track after the traffic pass is the advanced image of
some car present before the pass. -/
theorem updateTraffic_allCars {dt : ℚ} {st : GameState} {a : Car}
    (h : a ∈ allCars (updateTraffic dt st).segments) :
    ∃ c ∈ allCars st.segments, a = advCar (trafficCtx dt st) c := by
  have h1 : a ∈ allCars (st.segments.map
      (fun seg => { seg with cars := seg.cars.map (advCar (trafficCtx dt st)) })) :=
    applyMoves_allCars_subset h
  rw [mem_allCars_iff] at h1
  obtain ⟨i, hi⟩ := h1
  unfold carsAt at hi
  rw [List.get?_map] at hi
  cases hg : st.segments.get? i with
  | none => rw [hg] at hi; exact absurd hi (List.not_mem_nil a)
  | some seg =>
    rw [hg] at hi
    simp only [Option.map_some', Option.getD_some] at hi
    obtain ⟨c, hc, rfl⟩ := List.mem_map.mp hi
    exact ⟨c, mem_allCars_of_mem_seg (List.get?_mem hg) hc, rfl⟩

theorem updateTraffic_segments (dt : ℚ) (st : GameState) :
    (updateTraffic dt st).segments =
      applyMoves
        (st.segments.map
          (fun seg => { seg with cars := seg.cars.map (advCar (trafficCtx dt st)) }))
        (collectMoves st.segments.length
          (st.segments.map
            (fun seg => { seg with cars := seg.cars.map (advCar (trafficCtx dt st)) }))) := rfl

theorem updateTraffic_segments_length (dt : ℚ) (st : GameState) :
    (updateTraffic dt st).segments.length = st.segments.length := by
  rw [updateTraffic_segments, applyMoves_length, List.length_map]

theorem update_segments_length (dt : ℚ) (cmd : Cmd) (st : GameState) :
    (update dt cmd st).segments.length = st.segments.length := by
  unfold update
  split_ifs
  · rfl
  · rw [checkSpriteCollisions_segments, updateTraffic_segments_length, physStep_segments]

/-- C8 (amended): after any live step with `dt ∈ (0,1]`, the player's
position is normalized into `[0, totalLength)`, but car depths are
normalized only into the closed interval `[0, totalLength]`: the car wrap
(game.js line 660) uses a strict `>`, so a car can land exactly on the seam
`z = totalLength` (it is then owned by segment 0 and renormalized on the
next advance) — see the counterexample. -/
theorem C8_amended_depths_normalized (dt : ℚ) (cmd : Cmd) (st : GameState)
    (hdt : 0 < dt) (hdt1 : dt ≤ 1) (hgo : st.isGameOver = false)
    (hp0 : 0 ≤ st.position) (hp1 : st.position < trackLength st.segments)
    (hlen : 61 ≤ st.segments.length) (hcars : CarsWF st.segments) :
    (0 ≤ (update dt cmd st).position ∧
      (update dt cmd st).position < trackLength (update dt cmd st).segments) ∧
    (∀ c ∈ allCars (update dt cmd st).segments,
      0 ≤ c.z ∧ c.z ≤ trackLength (update dt cmd st).segments) ∧
    trackLength (update dt cmd st).segments = trackLength st.segments := by
  have hTL : trackLength (update dt cmd st).segments = trackLength st.segments := by
    rw [trackLength, trackLength, update_segments_length]
  have h12 : 12000 < trackLength st.segments := by
    rw [trackLength]
    have h61 : (61 : ℚ) ≤ (st.segments.length : ℚ) := by exact_mod_cast hlen
    unfold SEGMENT_LENGTH
    nlinarith
  refine ⟨?_, ?_, hTL⟩
  · rw [hTL, update_position_of_live _ _ hgo]
    exact ⟨(physStep_position_mem dt cmd st hdt hdt1 hp0 hp1 h12).1,
      (physStep_position_mem dt cmd st hdt hdt1 hp0 hp1 h12).2⟩
  · intro c hc
    rw [hTL]
    unfold update at hc
    rw [hgo] at hc
    simp only [Bool.false_eq_true, if_false] at hc
    rw [checkSpriteCollisions_segments] at hc
    obtain ⟨c0, hc0, rfl⟩ := updateTraffic_allCars hc
    rw [physStep_segments] at hc0
    obtain ⟨hz0, hz1, hv0, hv1⟩ := hcars c0 hc0
    have hctxlen : (trafficCtx dt (physStep dt cmd st)).len = trackLength st.segments := rfl
    have hzadv : (advCar (trafficCtx dt (physStep dt cmd st)) c0).z =
        wrapZ (trackLength st.segments)
          (c0.z + c0.speed * dt) := by
      simp only [advCar, advCarZ, trafficCtx, physStep_segments]
    rw [hzadv]
    refine wrapZ_mem ?_ ?_
    · nlinarith
    · nlinarith

/-- C5 counterexample: at the scenario's lateral separation 0.65, hitboxes of
equal width (both at the collision code's car width 0.45) do not overlap
either — the half-width sum 0.45 is below 0.65 — so the claim's aside that
equal-width hitboxes would overlap in this scenario is false, and the
scenario cannot distinguish the narrow-player rule from a naive equal-width
rule. -/
theorem C5_counterexample_equal_width_boxes_disjoint :
    overlap 0 (45/100) (65/100) (45/100) = false ∧
    overlap 0 (45/100) (-65/100) (45/100) = false := by
  constructor <;> norm_num [overlap]

theorem C5_amended_witness :
    (((⟨100, 0, 0, 0, 0, 0, false,
        [⟨0, 0, [], []⟩, ⟨1, 0, [⟨10, -65/100, 400, 0, false⟩], []⟩,
          ⟨2, 0, [⟨11, 65/100, 450, 0, false⟩], []⟩]⟩ : GameState)).isGameOver = false ∧
      allCars [⟨0, 0, [], []⟩, ⟨1, 0, [⟨10, -65/100, 400, 0, false⟩], []⟩,
          ⟨2, 0, [⟨11, 65/100, 450, 0, false⟩], []⟩] =
        [⟨10, -65/100, 400, 0, false⟩, ⟨11, 65/100, 450, 0, false⟩] ∧
      |carDist (trafficCtx (1/60) (physStep (1/60) ⟨0, 0, 0⟩ ⟨100, 0, 0, 0, 0, 0, false,
          [⟨0, 0, [], []⟩, ⟨1, 0, [⟨10, -65/100, 400, 0, false⟩], []⟩,
            ⟨2, 0, [⟨11, 65/100, 450, 0, false⟩], []⟩]⟩))
        (advCarZ (trafficCtx (1/60) (physStep (1/60) ⟨0, 0, 0⟩ ⟨100, 0, 0, 0, 0, 0, false,
          [⟨0, 0, [], []⟩, ⟨1, 0, [⟨10, -65/100, 400, 0, false⟩], []⟩,
            ⟨2, 0, [⟨11, 65/100, 450, 0, false⟩], []⟩]⟩)) ⟨10, -65/100, 400, 0, false⟩)| <
        200 ∧
      |carDist (trafficCtx (1/60) (physStep (1/60) ⟨0, 0, 0⟩ ⟨100, 0, 0, 0, 0, 0, false,
          [⟨0, 0, [], []⟩, ⟨1, 0, [⟨10, -65/100, 400, 0, false⟩], []⟩,
            ⟨2, 0, [⟨11, 65/100, 450, 0, false⟩], []⟩]⟩))
        (advCarZ (trafficCtx (1/60) (physStep (1/60) ⟨0, 0, 0⟩ ⟨100, 0, 0, 0, 0, 0, false,
          [⟨0, 0, [], []⟩, ⟨1, 0, [⟨10, -65/100, 400, 0, false⟩], []⟩,
            ⟨2, 0, [⟨11, 65/100, 450, 0, false⟩], []⟩]⟩)) ⟨11, 65/100, 450, 0, false⟩)| <
        200) ∧
    (¬ hitCond (trafficCtx (1/60) (physStep (1/60) ⟨0, 0, 0⟩ ⟨100, 0, 0, 0, 0, 0, false,
        [⟨0, 0, [], []⟩, ⟨1, 0, [⟨10, -65/100, 400, 0, false⟩], []⟩,
          ⟨2, 0, [⟨11, 65/100, 450, 0, false⟩], []⟩]⟩)) ⟨10, -65/100, 400, 0, false⟩ ∧
      ¬ hitCond (trafficCtx (1/60) (physStep (1/60) ⟨0, 0, 0⟩ ⟨100, 0, 0, 0, 0, 0, false,
        [⟨0, 0, [], []⟩, ⟨1, 0, [⟨10, -65/100, 400, 0, false⟩], []⟩,
          ⟨2, 0, [⟨11, 65/100, 450, 0, false⟩], []⟩]⟩)) ⟨11, 65/100, 450, 0, false⟩ ∧
      (update (1/60) ⟨0, 0, 0⟩ ⟨100, 0, 0, 0, 0, 0, false,
        [⟨0, 0, [], []⟩, ⟨1, 0, [⟨10, -65/100, 400, 0, false⟩], []⟩,
          ⟨2, 0, [⟨11, 65/100, 450, 0, false⟩], []⟩]⟩).isGameOver = false) := by
  constructor
  · refine ⟨rfl, rfl, ?_, ?_⟩ <;>
      norm_num [trafficCtx, physStep, advCarZ, carDist, wrapZ, wrapDist, wrapPos, trackLength,
        clampX, clampSpeed, speedInput, steerDx, CAMERA_HEIGHT, CAMERA_DEPTH, SEGMENT_LENGTH,
        DECEL, MAX_SPEED, abs]
  · exact C5_amended_lane_splitting (1/60) ⟨0, 0, 0⟩ _ _ _ rfl rfl (by decide)
      (by norm_num [physStep, clampX, clampSpeed, speedInput, steerDx, DECEL, MAX_SPEED, abs])
      (by norm_num [physStep, clampX, clampSpeed, speedInput, steerDx, DECEL, MAX_SPEED, abs])

theorem C6_equal_offset_witness :
    (((⟨100, 1/2, 0, 201/2, 50, 0, false,
        [⟨0, 0, [], []⟩, ⟨1, 0, [], []⟩, ⟨2, 0, [⟨7, 1/2, 400, 0, false⟩], []⟩]⟩ :
          GameState)).isGameOver = false ∧
      allCars [⟨0, 0, [], []⟩, ⟨1, 0, [], []⟩, ⟨2, 0, [⟨7, 1/2, 400, 0, false⟩], []⟩] =
        [⟨7, 1/2, 400, 0, false⟩] ∧
      ((⟨7, 1/2, 400, 0, false⟩ : Car)).offset =
        (physStep (1/60) ⟨0, 0, 0⟩ ⟨100, 1/2, 0, 201/2, 50, 0, false,
          [⟨0, 0, [], []⟩, ⟨1, 0, [], []⟩, ⟨2, 0, [⟨7, 1/2, 400, 0, false⟩], []⟩]⟩).playerX ∧
      |carDist (trafficCtx (1/60) (physStep (1/60) ⟨0, 0, 0⟩ ⟨100, 1/2, 0, 201/2, 50, 0, false,
          [⟨0, 0, [], []⟩, ⟨1, 0, [], []⟩, ⟨2, 0, [⟨7, 1/2, 400, 0, false⟩], []⟩]⟩))
        (advCarZ (trafficCtx (1/60) (physStep (1/60) ⟨0, 0, 0⟩
            ⟨100, 1/2, 0, 201/2, 50, 0, false,
              [⟨0, 0, [], []⟩, ⟨1, 0, [], []⟩, ⟨2, 0, [⟨7, 1/2, 400, 0, false⟩], []⟩]⟩))
          ⟨7, 1/2, 400, 0, false⟩)| < 200) ∧
    ((update (1/60) ⟨0, 0, 0⟩ ⟨100, 1/2, 0, 201/2, 50, 0, false,
        [⟨0, 0, [], []⟩, ⟨1, 0, [], []⟩, ⟨2, 0, [⟨7, 1/2, 400, 0, false⟩], []⟩]⟩).isGameOver =
        true ∧
      (update (1/60) ⟨0, 0, 0⟩ ⟨100, 1/2, 0, 201/2, 50, 0, false,
        [⟨0, 0, [], []⟩, ⟨1, 0, [], []⟩, ⟨2, 0, [⟨7, 1/2, 400, 0, false⟩], []⟩]⟩).speed = 0 ∧
      (update (1/60) ⟨0, 0, 0⟩ ⟨100, 1/2, 0, 201/2, 50, 0, false,
          [⟨0, 0, [], []⟩, ⟨1, 0, [], []⟩, ⟨2, 0, [⟨7, 1/2, 400, 0, false⟩], []⟩]⟩).highScore =
        (if (201/2 : ℚ) > 50 then ((⌊(201/2 : ℚ)⌋ : ℤ) : ℚ) else 50)) := by
  constructor
  · refine ⟨rfl, rfl, ?_, ?_⟩
    · norm_num [physStep, clampX, steerDx, clampSpeed, speedInput, DECEL, MAX_SPEED]
    · norm_num [trafficCtx, physStep, advCarZ, carDist, wrapZ, wrapDist, wrapPos, trackLength,
        clampX, clampSpeed, speedInput, steerDx, CAMERA_HEIGHT, CAMERA_DEPTH, SEGMENT_LENGTH,
        DECEL, MAX_SPEED, abs]
  · exact C6_equal_offset_within_200_crashes (1/60) ⟨0, 0, 0⟩ _ _ rfl rfl
      (by norm_num [physStep, clampX, steerDx, clampSpeed, speedInput, DECEL, MAX_SPEED])
      (by norm_num [trafficCtx, physStep, advCarZ, carDist, wrapZ, wrapDist, wrapPos,
        trackLength, clampX, clampSpeed, speedInput, steerDx, CAMERA_HEIGHT, CAMERA_DEPTH,
        SEGMENT_LENGTH, DECEL, MAX_SPEED, abs])

theorem C7_overtake_bonus_witness :
    NoReset ⟨0, 1/2, 1000, 0, false⟩
      [⟨1, 400000, 1050, 0⟩, ⟨1, 400000, 1150, 0⟩] ∧
    bonusCount ⟨0, 1/2, 1000, 0, false⟩
      [⟨1, 400000, 1050, 0⟩, ⟨1, 400000, 1150, 0⟩] ≤ 1 ∧
    bonusCount ⟨0, 1/2, 1000, 0, false⟩
      [⟨1, 400000, 1050, 0⟩, ⟨1, 400000, 1150, 0⟩] = 1 :=
  ⟨by norm_num [NoReset, carDist, advCarZ, wrapZ, wrapDist, advCar, closeCallCond, abs],
   C7_overtake_bonus_once_per_approach.2.2.2.2 ⟨0, 1/2, 1000, 0, false⟩
     [⟨1, 400000, 1050, 0⟩, ⟨1, 400000, 1150, 0⟩]
     (by norm_num [NoReset, carDist, advCarZ, wrapZ, wrapDist, advCar, closeCallCond, abs]),
   by norm_num [bonusCount, carDist, advCarZ, wrapZ, wrapDist, advCar, closeCallCond, abs]⟩

end GestureRider


namespace GestureRider

theorem planSeam_no_sprites : ∀ seg ∈ resetRoad planSeam, seg.sprites = [] := by
  intro seg h
  obtain ⟨i, _, rfl⟩ := mem_resetRoad h
  simp [buildSegment, planSeam]

theorem seam_cars_ne {k : ℕ} (hk : k ≠ 1960) : (buildSegment planSeam k).cars = [] := by
  simp only [buildSegment, planSeam]
  split_ifs <;> simp [hk]

theorem seam_cars_at : (buildSegment planSeam 1960).cars =
    [⟨1960, 0, 392000, 8000, false⟩] := by
  simp only [buildSegment, planSeam]
  norm_num [SEGMENT_LENGTH]

theorem collectMovesAux_append (n : ℕ) (A B : List Segment) :
    ∀ i, collectMovesAux n i (A ++ B) =
      collectMovesAux n i A ++ collectMovesAux n (i + A.length) B := by
  induction A with
  | nil => intro i; simp [collectMovesAux]
  | cons s r ih =>
    intro i
    simp only [List.cons_append, collectMovesAux, List.append_eq, ih (i+1), List.length_cons,
      List.append_assoc]
    have heq : i + 1 + r.length = i + (r.length + 1) := by omega
    rw [heq]

theorem resetRoad_seam_decomp : resetRoad planSeam =
    (List.range 1960).map (buildSegment planSeam) ++
      buildSegment planSeam 1960 ::
        (List.range 39).map (fun j => buildSegment planSeam (1961 + j)) := by
  unfold resetRoad TOTAL_SEGMENTS
  rw [show (2000:ℕ) = 1961 + 39 from rfl, List.range_add, show (1961:ℕ) = 1960 + 1 from rfl,
    List.range_succ]
  simp [List.map_append, List.map_map, Function.comp]

end GestureRider

namespace GestureRider

theorem initState_segments (p : BuildPlan) (hs : ℚ) :
    (initState p hs).segments = resetRoad p := by
  rw [initState_eq]

theorem seam_ctx_eval :
    trafficCtx 1 (⟨0, 0, 0, 0, 0, 0, false, resetRoad planSeam⟩ : GameState) =
      ⟨1, 400000, 1000, 0⟩ := by
  simp only [trafficCtx]
  rw [resetRoad_trackLength]
  norm_num [CAMERA_HEIGHT, CarCtx.mk.injEq]

end GestureRider

namespace GestureRider

theorem idle_physStep (segs : List Segment) (hlen : trackLength segs = 400000) :
    physStep 1 ⟨0, 0, 0⟩ (⟨0, 0, 0, 0, 0, 0, false, segs⟩ : GameState) =
      ⟨0, 0, 0, 0, 0, 0, false, segs⟩ := by
  simp only [physStep]
  norm_num [clampX, clampSpeed, speedInput, steerDx, wrapPos, DECEL, MAX_SPEED, hlen,
    GameState.mk.injEq]

theorem seam_physStep :
    physStep 1 ⟨0, 0, 0⟩ (⟨0, 0, 0, 0, 0, 0, false, resetRoad planSeam⟩ : GameState) =
      ⟨0, 0, 0, 0, 0, 0, false, resetRoad planSeam⟩ :=
  idle_physStep (resetRoad planSeam) (resetRoad_trackLength planSeam)

theorem seam_update_unfold :
    update 1 ⟨0, 0, 0⟩ (initState planSeam 0) =
      checkSpriteCollisions (updateTraffic 1
        (⟨0, 0, 0, 0, 0, 0, false, resetRoad planSeam⟩ : GameState)) := by
  unfold update
  rw [initState_eq]
  simp only [Bool.false_eq_true, if_false]
  rw [seam_physStep]

theorem seam_advCar_eval :
    advCar ⟨1, 400000, 1000, 0⟩ ⟨1960, 0, 392000, 8000, false⟩ =
      ⟨1960, 0, 400000, 8000, false⟩ := by
  have hcc : ¬ closeCallCond ⟨1, 400000, 1000, 0⟩ ⟨1960, 0, 392000, 8000, false⟩ := by
    simp only [closeCallCond, carDist, advCarZ, wrapZ, wrapDist]
    norm_num
  simp only [advCar, if_neg hcc]
  norm_num [advCarZ, carDist, wrapZ, wrapDist, abs, Car.mk.injEq]

end GestureRider

namespace GestureRider

theorem gfun_cars (ctx : CarCtx) (s : Segment) :
    ({ s with cars := s.cars.map (advCar ctx) } : Segment).cars = s.cars.map (advCar ctx) := rfl

theorem seam_segIdx : segIdx TOTAL_SEGMENTS (400000 : ℚ) = 0 := by
  unfold segIdx TOTAL_SEGMENTS SEGMENT_LENGTH
  norm_num

theorem seam_collectMoves :
    collectMoves TOTAL_SEGMENTS
      ((resetRoad planSeam).map
        (fun seg => { seg with cars := seg.cars.map (advCar ⟨1, 400000, 1000, 0⟩) })) =
      [⟨1960, (1960 : ℤ), 0⟩] := by
  rw [resetRoad_seam_decomp, List.map_append, List.map_cons]
  unfold collectMoves
  rw [collectMovesAux_append]
  have hA : ∀ seg ∈ ((List.range 1960).map (buildSegment planSeam)).map
      (fun seg => { seg with cars := seg.cars.map (advCar ⟨1, 400000, 1000, 0⟩) }),
      seg.cars = [] := by
    intro seg hs
    obtain ⟨s0, hs0, rfl⟩ := List.mem_map.mp hs
    obtain ⟨k, hk, rfl⟩ := List.mem_map.mp hs0
    have hne : k ≠ 1960 := by have := List.mem_range.mp hk; omega
    rw [gfun_cars, seam_cars_ne hne]
    rfl
  rw [collectMovesAux_no_cars _ hA 0]
  have hB : ∀ seg ∈ ((List.range 39).map (fun j => buildSegment planSeam (1961 + j))).map
      (fun seg => { seg with cars := seg.cars.map (advCar ⟨1, 400000, 1000, 0⟩) }),
      seg.cars = [] := by
    intro seg hs
    obtain ⟨s0, hs0, rfl⟩ := List.mem_map.mp hs
    obtain ⟨k, hk, rfl⟩ := List.mem_map.mp hs0
    have hne : 1961 + k ≠ 1960 := by omega
    rw [gfun_cars, seam_cars_ne hne]
    rfl
  simp only [List.nil_append, List.length_map, List.length_range, Nat.zero_add]
  rw [collectMovesAux, collectMovesAux_no_cars _ hB 1961]
  rw [gfun_cars, seam_cars_at]
  simp only [List.map_cons, List.map_nil, seam_advCar_eval, List.filterMap_cons,
    List.filterMap_nil, seam_segIdx, List.append_nil]
  norm_num

end GestureRider

namespace GestureRider

theorem seam_segs1_get (k : ℕ) (hk : k < TOTAL_SEGMENTS) :
    ((resetRoad planSeam).map
      (fun seg => { seg with cars := seg.cars.map (advCar ⟨1, 400000, 1000, 0⟩) })).get? k =
      some { buildSegment planSeam k with
        cars := (buildSegment planSeam k).cars.map (advCar ⟨1, 400000, 1000, 0⟩) } := by
  rw [List.get?_map, resetRoad_get?_lt planSeam hk]
  rfl

set_option maxRecDepth 40000 in
theorem seam_carsAt0 :
    carsAt (update 1 ⟨0, 0, 0⟩ (initState planSeam 0)).segments 0 =
      [⟨1960, 0, 400000, 8000, false⟩] := by
  rw [seam_update_unfold, checkSpriteCollisions_segments, updateTraffic_segments]
  simp only [trafficCtx]
  rw [resetRoad_trackLength]
  norm_num [CAMERA_HEIGHT]
  rw [resetRoad_length, seam_collectMoves]
  simp only [applyMoves, List.foldl]
  have h2 : extractFirstId (1960 : ℕ)
      ({ buildSegment planSeam 1960 with
        cars := (buildSegment planSeam 1960).cars.map (advCar ⟨1, 400000, 1000, 0⟩) } :
          Segment).cars = some (⟨1960, 0, 400000, 8000, false⟩, []) := by
    rw [gfun_cars, seam_cars_at]
    simp [seam_advCar_eval, extractFirstId]
  have h3 : ((((resetRoad planSeam).map
      (fun seg => { seg with cars := seg.cars.map (advCar ⟨1, 400000, 1000, 0⟩) })).set 1960
        { { buildSegment planSeam 1960 with
            cars := (buildSegment planSeam 1960).cars.map (advCar ⟨1, 400000, 1000, 0⟩) } with
          cars := [] }).get? 0) =
      some { buildSegment planSeam 0 with
        cars := (buildSegment planSeam 0).cars.map (advCar ⟨1, 400000, 1000, 0⟩) } := by
    rw [List.get?_set_ne _ _ (by omega)]
    exact seam_segs1_get 0 (by norm_num [TOTAL_SEGMENTS])
  rw [applyMove_eval (seam_segs1_get 1960 (by norm_num [TOTAL_SEGMENTS])) h2 h3]
  unfold carsAt
  dsimp only
  simp only [Int.toNat_zero, Int.toNat_ofNat]
  rw [List.get?_set_eq]
  rw [List.get?_set_ne _ _ (by omega), seam_segs1_get 0 (by norm_num [TOTAL_SEGMENTS])]
  simp only [Option.map_some', Option.getD_some, Option.map_eq_map, List.map_cons]
  rw [seam_cars_ne (by omega : (0:ℕ) ≠ 1960)]
  rfl

end GestureRider

namespace GestureRider

/-- C8: counterexample to strict normalization of depth values. From a freshly built
track whose only car sits in segment 1960 (z = 392000) with speed 8000, one update with
dt = 1 and idle input advances that car to z = 392000 + 8000 = 400000, which is exactly
trackLength (2000 segments x 200); the wrap at game.js:660 uses strict `>` so z is NOT
reduced below the track length, refuting "every car's z lies in [0, totalLength)": the
car's depth equals totalLength, landing in segment 0. -/
theorem C8_counterexample_car_z_equals_track_length :
    trackLength (update 1 ⟨0, 0, 0⟩ (initState planSeam 0)).segments = 400000 ∧
    (carsAt (update 1 ⟨0, 0, 0⟩ (initState planSeam 0)).segments 0).map Car.z = [400000] ∧
    ¬ ∀ z ∈ (carsAt (update 1 ⟨0, 0, 0⟩ (initState planSeam 0)).segments 0).map Car.z,
        z < trackLength (update 1 ⟨0, 0, 0⟩ (initState planSeam 0)).segments := by
  have hL : trackLength (update 1 ⟨0, 0, 0⟩ (initState planSeam 0)).segments = 400000 := by
    rw [trackLength, update_segments_length, initState_eq]
    dsimp only
    rw [resetRoad_length]
    norm_num [TOTAL_SEGMENTS, SEGMENT_LENGTH]
  have hz : (carsAt (update 1 ⟨0, 0, 0⟩ (initState planSeam 0)).segments 0).map Car.z =
      [400000] := by
    rw [seam_carsAt0]
    rfl
  refine ⟨hL, hz, fun hall => ?_⟩
  have h4 := hall 400000 (by rw [hz]; exact List.mem_singleton_self _)
  rw [hL] at h4
  exact absurd h4 (by norm_num)

end GestureRider

namespace GestureRider

theorem C8_amended_witness :
    ((0:ℚ) < 1 ∧ (1:ℚ) ≤ 1 ∧
      (⟨100, 0, 0, 0, 0, 0, false, List.replicate 61 ⟨0, 0, [], []⟩⟩ :
          GameState).isGameOver = false ∧
      (0:ℚ) ≤ 100 ∧
      (100:ℚ) < trackLength (List.replicate 61 ⟨0, 0, [], []⟩) ∧
      61 ≤ (List.replicate 61 (⟨0, 0, [], []⟩ : Segment)).length ∧
      CarsWF (List.replicate 61 ⟨0, 0, [], []⟩)) ∧
    ((0 ≤ (update 1 ⟨0, 0, 0⟩
          ⟨100, 0, 0, 0, 0, 0, false, List.replicate 61 ⟨0, 0, [], []⟩⟩).position ∧
        (update 1 ⟨0, 0, 0⟩
            ⟨100, 0, 0, 0, 0, 0, false, List.replicate 61 ⟨0, 0, [], []⟩⟩).position <
          trackLength (update 1 ⟨0, 0, 0⟩
            ⟨100, 0, 0, 0, 0, 0, false, List.replicate 61 ⟨0, 0, [], []⟩⟩).segments) ∧
      (∀ c ∈ allCars (update 1 ⟨0, 0, 0⟩
            ⟨100, 0, 0, 0, 0, 0, false, List.replicate 61 ⟨0, 0, [], []⟩⟩).segments,
          0 ≤ c.z ∧ c.z ≤ trackLength (update 1 ⟨0, 0, 0⟩
            ⟨100, 0, 0, 0, 0, 0, false, List.replicate 61 ⟨0, 0, [], []⟩⟩).segments) ∧
      trackLength (update 1 ⟨0, 0, 0⟩
          ⟨100, 0, 0, 0, 0, 0, false, List.replicate 61 ⟨0, 0, [], []⟩⟩).segments =
        trackLength (⟨100, 0, 0, 0, 0, 0, false, List.replicate 61 ⟨0, 0, [], []⟩⟩ :
          GameState).segments) := by
  have hlen : trackLength (List.replicate 61 (⟨0, 0, [], []⟩ : Segment)) = 12200 := by
    rw [trackLength]
    norm_num [SEGMENT_LENGTH]
  have hall : allCars (List.replicate 61 (⟨0, 0, [], []⟩ : Segment)) = [] := rfl
  have hwf : CarsWF (List.replicate 61 (⟨0, 0, [], []⟩ : Segment)) := by
    intro c hc
    rw [hall] at hc
    exact absurd hc (List.not_mem_nil c)
  refine ⟨⟨by norm_num, by norm_num, rfl, by norm_num, by rw [hlen]; norm_num,
    by simp, hwf⟩, ?_⟩
  exact C8_amended_depths_normalized 1 ⟨0, 0, 0⟩
    ⟨100, 0, 0, 0, 0, 0, false, List.replicate 61 ⟨0, 0, [], []⟩⟩
    (by norm_num) (by norm_num) rfl (by norm_num) (by rw [hlen]; norm_num)
    (by simp) hwf

end GestureRider

namespace GestureRider

theorem carsAt_set_self {segs : List Segment} {i : ℕ} (A : Segment) (h : i < segs.length) :
    carsAt (segs.set i A) i = A.cars := by
  unfold carsAt
  rw [List.get?_set_eq]
  rw [(List.get?_eq_get h : segs.get? i = some _)]
  rfl

theorem carsAt_set_of_ne {segs : List Segment} {i j : ℕ} (A : Segment) (h : i ≠ j) :
    carsAt (segs.set i A) j = carsAt segs j := by
  unfold carsAt
  rw [List.get?_set_ne _ _ h]

theorem carIds_set_count {segs : List Segment} :
    ∀ {i : ℕ} (A : Segment), i < segs.length → ∀ k : ℕ,
      (carIds (segs.set i A)).count k + ((carsAt segs i).map Car.id).count k =
        (carIds segs).count k + (A.cars.map Car.id).count k := by
  induction segs with
  | nil => intro i A h; exact absurd h (by simp)
  | cons s r ih =>
    intro i A h k
    match i with
    | 0 =>
      rw [List.set_cons_zero, carIds_cons, carIds_cons, carsAt_cons_zero,
        List.count_append, List.count_append]
      omega
    | i + 1 =>
      rw [List.set_cons_succ, carIds_cons, carIds_cons, carsAt_cons_succ,
        List.count_append, List.count_append]
      have := ih A (by simpa using h) k
      omega

theorem advCar_id (ctx : CarCtx) (c : Car) : (advCar ctx c).id = c.id := rfl

theorem carIds_phaseA (ctx : CarCtx) :
    ∀ segs : List Segment,
      carIds (segs.map (fun seg => { seg with cars := seg.cars.map (advCar ctx) })) =
        carIds segs := by
  intro segs
  induction segs with
  | nil => rfl
  | cons s r ih =>
    rw [List.map_cons, carIds_cons, carIds_cons, ih, List.map_map]
    congr 1

theorem segIdx_lt {n : ℕ} (hn : 0 < n) (z : ℚ) : segIdx n z < (n : ℤ) := by
  unfold segIdx
  exact Int.emod_lt_of_pos _ (by exact_mod_cast hn)

theorem segIdx_nonneg {n : ℕ} (hn : 0 < n) (z : ℚ) : 0 ≤ segIdx n z := by
  unfold segIdx
  exact Int.emod_nonneg _ (by positivity)

theorem segIdx_toNat_lt {n : ℕ} (hn : 0 < n) (z : ℚ) : (segIdx n z).toNat < n := by
  have h1 := segIdx_lt hn z
  omega

theorem filterMap_carId_sublist (f : Car → Option Move)
    (h : ∀ c m, f c = some m → m.carId = c.id) :
    ∀ cars : List Car, ((cars.filterMap f).map Move.carId).Sublist (cars.map Car.id) := by
  intro cars
  induction cars with
  | nil => simp
  | cons c cs ihc =>
    rw [List.filterMap_cons]
    cases hf : f c with
    | none => exact ihc.cons c.id
    | some m =>
      rw [List.map_cons, List.map_cons, h c m hf]
      exact ihc.cons₂ c.id

theorem collectMovesAux_ids_sublist (n : ℕ) :
    ∀ (segs : List Segment) (i : ℕ),
      ((collectMovesAux n i segs).map Move.carId).Sublist (carIds segs) := by
  intro segs
  induction segs with
  | nil => intro i; simp [collectMovesAux, carIds, allCars]
  | cons s r ih =>
    intro i
    rw [collectMovesAux, List.map_append, carIds_cons]
    refine List.Sublist.append ?_ (ih (i + 1))
    refine filterMap_carId_sublist _ ?_ s.cars
    intro c m hf
    dsimp only at hf
    split_ifs at hf
    obtain rfl := Option.some.inj hf
    rfl

theorem collectMovesAux_mem_spec {n : ℕ} {m : Move} :
    ∀ {segs : List Segment} {i : ℕ}, m ∈ collectMovesAux n i segs →
      ∃ j c, j < segs.length ∧ c ∈ carsAt segs j ∧ c.id = m.carId ∧
        m.src = ((i + j : ℕ) : ℤ) ∧ m.dst = segIdx n c.z ∧ m.dst ≠ m.src := by
  intro segs
  induction segs with
  | nil => intro i h; exact absurd h (by simp [collectMovesAux])
  | cons s r ih =>
    intro i h
    rw [collectMovesAux, List.mem_append] at h
    rcases h with h | h
    · obtain ⟨c, hc, hf⟩ := List.mem_filterMap.mp h
      by_cases ha : segIdx n c.z = (i : ℤ)
      · rw [if_pos ha] at hf
        exact absurd hf (by simp)
      · rw [if_neg ha] at hf
        obtain rfl := Option.some.inj hf
        exact ⟨0, c, by simp, by rw [carsAt_cons_zero]; exact hc, rfl, by simp, rfl, by
          simpa using ha⟩
    · obtain ⟨j, c, hj, hc, hid, hsrc, hdst, hne⟩ := ih h
      refine ⟨j + 1, c, by simpa using hj, by rw [carsAt_cons_succ]; exact hc, hid, ?_, hdst,
        ?_⟩
      · rw [hsrc]
        congr 1
        omega
      · exact hne

theorem collectMovesAux_complete {n : ℕ} :
    ∀ {segs : List Segment} {i j : ℕ} {c : Car}, c ∈ carsAt segs j →
      segIdx n c.z ≠ ((i + j : ℕ) : ℤ) →
      c.id ∈ (collectMovesAux n i segs).map Move.carId := by
  intro segs
  induction segs with
  | nil => intro i j c hc; rw [carsAt_nil] at hc; exact absurd hc (List.not_mem_nil c)
  | cons s r ih =>
    intro i j c hc hne
    rw [collectMovesAux, List.map_append, List.mem_append]
    match j with
    | 0 =>
      rw [carsAt_cons_zero] at hc
      left
      refine List.mem_map.mpr ⟨⟨c.id, (i : ℤ), segIdx n c.z⟩, ?_, rfl⟩
      refine List.mem_filterMap.mpr ⟨c, hc, ?_⟩
      rw [if_neg (by simpa using hne)]
    | j + 1 =>
      rw [carsAt_cons_succ] at hc
      right
      exact ih hc (by rw [show i + 1 + j = i + (j + 1) from by omega]; exact hne)

theorem extractFirstId_of_mem_nodup {cars : List Car} {c : Car}
    (hnd : (cars.map Car.id).Nodup) (hc : c ∈ cars) :
    ∃ l₁ l₂, cars = l₁ ++ c :: l₂ ∧ extractFirstId c.id cars = some (c, l₁ ++ l₂) := by
  have hsome := extractFirstId_isSome (l := cars) ⟨c, hc, rfl⟩
  obtain ⟨⟨c', rest⟩, heq⟩ := Option.isSome_iff_exists.mp hsome
  obtain ⟨hid, l₁, l₂, hdec, hrest⟩ := extractFirstId_mem heq
  have hc' : c' ∈ cars := by rw [hdec]; exact List.mem_append_right _ (List.mem_cons_self _ _)
  have : c = c' := List.inj_on_of_nodup_map hnd hc hc' (by rw [hid])
  subst this
  exact ⟨l₁, l₂, hdec, by rw [hrest] at heq; exact heq⟩

end GestureRider

namespace GestureRider

theorem setCars_cars (s : Segment) (X : List Car) : ({ s with cars := X } : Segment).cars = X :=
  rfl

theorem applyMove_step {n : ℕ} {segs : List Segment} {m : Move} {M : List Move}
    (hglob : (carIds segs).Nodup) (hspec : MovesSpec n segs (m :: M)) :
    MovesSpec n (applyMove segs m) M ∧
    (carIds (applyMove segs m)).Perm (carIds segs) := by
  obtain ⟨hnd, hmv, hcomp⟩ := hspec
  obtain ⟨hs0, hd0, hsd, hslen, hdlen, c, hcmem, hcid, hcz⟩ := hmv m (List.mem_cons_self m M)
  have hsd' : m.src.toNat ≠ m.dst.toNat := by
    intro h
    apply hsd
    have h1 := Int.toNat_of_nonneg hs0
    have h2 := Int.toNat_of_nonneg hd0
    omega
  have hmid : m.carId ∉ M.map Move.carId := by
    rw [List.map_cons, List.nodup_cons] at hnd
    exact hnd.1
  have hndM : (M.map Move.carId).Nodup := by
    rw [List.map_cons, List.nodup_cons] at hnd
    exact hnd.2
  obtain ⟨srcSeg, hget_s⟩ : ∃ A, segs.get? m.src.toNat = some A := ⟨_, List.get?_eq_get hslen⟩
  obtain ⟨dseg, hget_d⟩ : ∃ A, segs.get? m.dst.toNat = some A := ⟨_, List.get?_eq_get hdlen⟩
  have hcars : carsAt segs m.src.toNat = srcSeg.cars := by
    unfold carsAt
    rw [hget_s]
    rfl
  have hcars_d : carsAt segs m.dst.toNat = dseg.cars := by
    unfold carsAt
    rw [hget_d]
    rfl
  have hndseg : (srcSeg.cars.map Car.id).Nodup := by
    rw [← hcars]
    exact nodup_segment_ids hglob
  have hcmem' : c ∈ srcSeg.cars := hcars ▸ hcmem
  obtain ⟨l₁, l₂, hsplit, hext⟩ := extractFirstId_of_mem_nodup hndseg hcmem'
  have hext' : extractFirstId m.carId srcSeg.cars = some (c, l₁ ++ l₂) := by
    rw [← hcid]
    exact hext
  have hget_d' :
      (segs.set m.src.toNat { srcSeg with cars := l₁ ++ l₂ }).get? m.dst.toNat = some dseg := by
    rw [List.get?_set_ne _ _ hsd']
    exact hget_d
  have happ := applyMove_eval hget_s hext' hget_d'
  have hcNot : c.id ∉ (l₁ ++ l₂).map Car.id := by
    rw [hsplit, List.map_append, List.map_cons, List.nodup_append] at hndseg
    obtain ⟨h1, h2, h3⟩ := hndseg
    rw [List.nodup_cons] at h2
    rw [List.map_append, List.mem_append]
    rintro (h | h)
    · exact h3 h (List.mem_cons_self _ _)
    · exact h2.1 h
  have huniq : ∀ {i j : ℕ} {ci cj : Car}, ci ∈ carsAt segs i → cj ∈ carsAt segs j →
      ci.id = cj.id → i = j ∧ ci = cj := carIds_nodup_unique hglob
  have hAt : ∀ j : ℕ, carsAt (applyMove segs m) j =
      if j = m.dst.toNat then dseg.cars ++ [c]
      else if j = m.src.toNat then l₁ ++ l₂
      else carsAt segs j := by
    intro j
    rw [happ]
    by_cases hjd : j = m.dst.toNat
    · subst hjd
      rw [if_pos rfl, carsAt_set_self _ (by rw [List.length_set]; exact hdlen), setCars_cars]
    · rw [if_neg hjd, carsAt_set_of_ne _ (fun h => hjd h.symm)]
      by_cases hjs : j = m.src.toNat
      · subst hjs
        rw [if_pos rfl, carsAt_set_self _ hslen, setCars_cars]
      · rw [if_neg hjs, carsAt_set_of_ne _ (fun h => hjs h.symm)]
  have hcount : ∀ k : ℕ, (carIds (applyMove segs m)).count k = (carIds segs).count k := by
    intro k
    have E1 := @carIds_set_count segs m.src.toNat ({ srcSeg with cars := l₁ ++ l₂ }) hslen k
    have E2 := @carIds_set_count
      (segs.set m.src.toNat { srcSeg with cars := l₁ ++ l₂ }) m.dst.toNat
      ({ dseg with cars := dseg.cars ++ [c] }) (by rw [List.length_set]; exact hdlen) k
    rw [setCars_cars] at E1 E2
    rw [carsAt_set_of_ne _ hsd', hcars_d] at E2
    rw [hcars, hsplit] at E1
    rw [happ]
    simp only [List.map_append, List.map_cons, List.map_nil, List.count_append,
      List.count_cons, List.count_nil, beq_iff_eq] at E1 E2 ⊢
    split_ifs at E1 E2 <;> omega
  refine ⟨⟨hndM, ?_, ?_⟩, List.perm_iff_count.mpr hcount⟩
  · intro m' hm'
    obtain ⟨hs0', hd0', hsd2, hslen', hdlen', c'', hcmem'', hcid'', hcz''⟩ :=
      hmv m' (List.mem_cons_of_mem m hm')
    have hidne : c''.id ≠ c.id := by
      rw [hcid'', hcid]
      intro h
      exact hmid (h ▸ List.mem_map_of_mem Move.carId hm')
    refine ⟨hs0', hd0', hsd2, by rw [applyMove_length]; exact hslen',
      by rw [applyMove_length]; exact hdlen', c'', ?_, hcid'', hcz''⟩
    rw [hAt]
    by_cases h1 : m'.src.toNat = m.dst.toNat
    · rw [if_pos h1]
      rw [h1, hcars_d] at hcmem''
      exact List.mem_append_left _ hcmem''
    · rw [if_neg h1]
      by_cases h2 : m'.src.toNat = m.src.toNat
      · rw [if_pos h2]
        rw [h2, hcars, hsplit] at hcmem''
        rcases List.mem_append.mp hcmem'' with h | h
        · exact List.mem_append_left _ h
        · rcases List.mem_cons.mp h with rfl | h
          · exact absurd rfl hidne
          · exact List.mem_append_right _ h
      · rw [if_neg h2]
        exact hcmem''
  · intro j c₁ hc₁ hnotin
    rw [hAt] at hc₁
    by_cases hjd : j = m.dst.toNat
    · rw [if_pos hjd] at hc₁
      rcases List.mem_append.mp hc₁ with h | h
    
      · by_cases hc1id : c₁.id = m.carId
        · exfalso
          rw [← hcars_d] at h
          have := (huniq h hcmem (by rw [hc1id, hcid])).1
          exact hsd' (by omega)
        · refine hcomp j c₁ ?_ ?_
          · rw [hjd, hcars_d]
            exact h
          · rw [List.map_cons, List.mem_cons]
            rintro (h' | h')
            · exact hc1id h'
            · exact hnotin h'
      · rcases List.mem_singleton.mp h with rfl
        rw [hjd]
        rw [hcz]
        exact (Int.toNat_of_nonneg hd0).symm
    · rw [if_neg hjd] at hc₁
      by_cases hjs : j = m.src.toNat
      · rw [if_pos hjs] at hc₁
        have hc₁' : c₁ ∈ carsAt segs j := by
          rw [hjs, hcars, hsplit]
          rcases List.mem_append.mp hc₁ with h | h
          · exact List.mem_append_left _ h
          · exact List.mem_append_right _ (List.mem_cons_of_mem _ h)
        by_cases hc1id : c₁.id = m.carId
        · exfalso
          apply hcNot
          rw [hcid, ← hc1id]
          exact List.mem_map_of_mem Car.id hc₁
        · refine hcomp j c₁ hc₁' ?_
          rw [List.map_cons, List.mem_cons]
          rintro (h' | h')
          · exact hc1id h'
          · exact hnotin h'
      · rw [if_neg hjs] at hc₁
        by_cases hc1id : c₁.id = m.carId
        · exfalso
          have := (huniq hc₁ hcmem (by rw [hc1id, hcid])).1
          exact hjs this
        · refine hcomp j c₁ hc₁ ?_
          rw [List.map_cons, List.mem_cons]
          rintro (h' | h')
          · exact hc1id h'
          · exact hnotin h'

end GestureRider

namespace GestureRider

theorem applyMoves_ownership {n : ℕ} :
    ∀ {M : List Move} {segs : List Segment}, (carIds segs).Nodup → MovesSpec n segs M →
      (∀ i : ℕ, ∀ c ∈ carsAt (applyMoves segs M) i, segIdx n c.z = (i : ℤ)) ∧
      (carIds (applyMoves segs M)).Perm (carIds segs) := by
  intro M
  induction M with
  | nil =>
    intro segs hglob hspec
    exact ⟨fun i c hc => hspec.2.2 i c hc (by simp), List.Perm.refl _⟩
  | cons m M ih =>
    intro segs hglob hspec
    obtain ⟨hspec', hperm⟩ := applyMove_step hglob hspec
    have hglob' : (carIds (applyMove segs m)).Nodup := hperm.nodup_iff.mpr hglob
    obtain ⟨hown, hperm'⟩ := ih hglob' hspec'
    exact ⟨hown, hperm'.trans hperm⟩

theorem collectMoves_spec {n : ℕ} {segs : List Segment} (hn : segs.length = n)
    (hglob : (carIds segs).Nodup) : MovesSpec n segs (collectMoves n segs) := by
  refine ⟨(collectMovesAux_ids_sublist n segs 0).nodup hglob, ?_, ?_⟩
  · intro m hm
    obtain ⟨j, c, hj, hc, hid, hsrc, hdst, hne⟩ := collectMovesAux_mem_spec hm
    have hpos : 0 < n := by omega
    have hsrcN : m.src.toNat = j := by
      rw [hsrc, show (0 + j : ℕ) = j from by omega]
      simp
    refine ⟨by rw [hsrc]; exact Int.natCast_nonneg _,
      by rw [hdst]; exact segIdx_nonneg hpos c.z,
      hne.symm,
      hsrcN ▸ hj,
      by rw [hdst, hn]; exact segIdx_toNat_lt hpos c.z,
      c, hsrcN ▸ hc, hid, hdst.symm⟩
  · intro i c hc hnot
    by_contra hne2
    apply hnot
    exact collectMovesAux_complete hc
      (by rw [show (0 + i : ℕ) = i from by omega]; exact hne2)

theorem updateTraffic_inv (dt : ℚ) (st : GameState)
    (hglob : (carIds st.segments).Nodup) :
    Owned (updateTraffic dt st).segments.length (updateTraffic dt st).segments ∧
    (carIds (updateTraffic dt st).segments).Perm (carIds st.segments) := by
  have hids1 := carIds_phaseA (trafficCtx dt st) st.segments
  have hglob1 : (carIds (st.segments.map
      (fun seg => { seg with cars := seg.cars.map (advCar (trafficCtx dt st)) }))).Nodup := by
    rw [hids1]
    exact hglob
  have hspec := collectMoves_spec (List.length_map st.segments _) hglob1
  obtain ⟨hown, hperm⟩ := applyMoves_ownership hglob1 hspec
  constructor
  · unfold Owned
    intro i c hc
    rw [updateTraffic_segments_length]
    rw [updateTraffic_segments] at hc
    exact hown i c hc
  · rw [updateTraffic_segments]
    exact hperm.trans (hids1 ▸ List.Perm.refl _)

theorem update_inv (dt : ℚ) (cmd : Cmd) (st : GameState)
    (hglob : (carIds st.segments).Nodup)
    (hown : Owned st.segments.length st.segments) :
    Owned (update dt cmd st).segments.length (update dt cmd st).segments ∧
    (carIds (update dt cmd st).segments).Perm (carIds st.segments) := by
  unfold update
  split_ifs with hgo
  · exact ⟨hown, List.Perm.refl _⟩
  · rw [checkSpriteCollisions_segments]
    have h1 : (carIds (physStep dt cmd st).segments).Nodup := by
      rw [physStep_segments]
      exact hglob
    obtain ⟨ho, hp⟩ := updateTraffic_inv dt (physStep dt cmd st) h1
    rw [physStep_segments] at hp
    exact ⟨ho, hp⟩

theorem buildSegment_ids (p : BuildPlan) (i : ℕ) :
    (buildSegment p i).cars.map Car.id = [] ∨ (buildSegment p i).cars.map Car.id = [i] := by
  unfold buildSegment
  dsimp only
  split_ifs
  · cases hpc : p.car i with
    | none => left; rfl
    | some pr => right; rfl
  · left
    rfl

theorem carIds_buildPlan_sublist (p : BuildPlan) :
    ∀ l : List ℕ, (carIds (l.map (buildSegment p))).Sublist l := by
  intro l
  induction l with
  | nil => simp [carIds, allCars]
  | cons a t ih =>
    rw [List.map_cons, carIds_cons]
    rcases buildSegment_ids p a with h | h
    · rw [h, List.nil_append]
      exact ih.cons a
    · rw [h, List.singleton_append]
      exact ih.cons₂ a

theorem carIds_resetRoad_nodup (p : BuildPlan) : (carIds (resetRoad p)).Nodup := by
  unfold resetRoad
  exact (carIds_buildPlan_sublist p (List.range TOTAL_SEGMENTS)).nodup (List.nodup_range _)

theorem owned_resetRoad (p : BuildPlan) : Owned (resetRoad p).length (resetRoad p) := by
  unfold Owned
  rw [resetRoad_length]
  intro i c hc
  have hi : i < TOTAL_SEGMENTS := by
    have := mem_carsAt_lt hc
    rw [resetRoad_length] at this
    exact this
  have hcs : carsAt (resetRoad p) i = (buildSegment p i).cars := by
    unfold carsAt
    rw [resetRoad_get?_lt p hi]
    rfl
  rw [hcs] at hc
  unfold buildSegment at hc
  dsimp only at hc
  split_ifs at hc
  · cases hpc : p.car i with
    | none =>
      rw [hpc] at hc
      exact absurd hc (List.not_mem_nil c)
    | some pr =>
      rw [hpc] at hc
      obtain rfl := List.mem_singleton.mp hc
      show segIdx TOTAL_SEGMENTS ((i : ℚ) * SEGMENT_LENGTH) = (i : ℤ)
      unfold segIdx
      rw [mul_div_assoc, div_self (by norm_num [SEGMENT_LENGTH]), mul_one, Int.floor_natCast]
      exact Int.emod_eq_of_lt (by positivity) (by exact_mod_cast hi)
  · exact absurd hc (List.not_mem_nil c)

theorem runSteps_ownership (run : List (ℚ × Cmd)) (st : GameState)
    (hglob : (carIds st.segments).Nodup)
    (hown : Owned st.segments.length st.segments) :
    Owned (runSteps run st).segments.length (runSteps run st).segments ∧
    (carIds (runSteps run st).segments).Perm (carIds st.segments) ∧
    (carIds (runSteps run st).segments).Nodup := by
  induction run generalizing st with
  | nil => exact ⟨hown, List.Perm.refl _, hglob⟩
  | cons s t ih =>
    have hr : runSteps (s :: t) st = runSteps t (update s.1 s.2 st) := rfl
    obtain ⟨ho1, hp1⟩ := update_inv s.1 s.2 st hglob hown
    have hg1 : (carIds (update s.1 s.2 st).segments).Nodup := hp1.nodup_iff.mpr hglob
    obtain ⟨ho, hp, hn2⟩ := ih (update s.1 s.2 st) hg1 ho1
    rw [hr]
    exact ⟨ho, hp.trans hp1, hn2⟩

/-- C2: single ownership of cars through any run of update ticks. Starting from
any freshly built track (`initState` over an arbitrary spawn plan) and folding
any list of `(dt, command)` ticks through `update`, every car sits in the
segment owning its depth (`floor(z / SEGMENT_LENGTH) mod segmentCount`,
`Owned`), and the multiset of car ids on the track is exactly the freshly built
one with no duplicates: no car is ever duplicated or dropped by the migration
pass, including across the track seam. -/
theorem C2_single_ownership_preserved (p : BuildPlan) (hs : ℚ) (run : List (ℚ × Cmd)) :
    Owned (runSteps run (initState p hs)).segments.length
      (runSteps run (initState p hs)).segments ∧
    (carIds (runSteps run (initState p hs)).segments).Perm (carIds (resetRoad p)) ∧
    (carIds (runSteps run (initState p hs)).segments).Nodup := by
  have h1 : (carIds (initState p hs).segments).Nodup := by
    rw [initState_segments]
    exact carIds_resetRoad_nodup p
  have h2 : Owned (initState p hs).segments.length (initState p hs).segments := by
    rw [initState_segments]
    exact owned_resetRoad p
  obtain ⟨ho, hp, hn⟩ := runSteps_ownership run (initState p hs) h1 h2
  rw [initState_segments] at hp
  exact ⟨ho, hp, hn⟩

end GestureRider
